import Mathlib

/-!
Shallow embedding of the MongoDB data-layer variants of this repository
(src/mongo_01.py, src/mongo_02.py, src/mongo_03.py, src/mongo_04.py) and of
the telemetry wrapper (src/telemetry.py).

Modelling conventions, used uniformly below:
* documents are association lists from field names to BSON-like values;
* Python `datetime` values are modelled as integer ticks (constructor `Val.dt`);
  `uuid.uuid4()` and `_now()` results are passed in as explicit parameters
  (`freshId`, `now`) since they are the only sources of nondeterminism;
* `ObjectId` values carry their 24-character hex string, normalized to lower
  case (pymongo's `str(ObjectId(s))` renders lower-case hex and two ObjectIds
  are equal iff their bytes are);
* Python string truthiness, `x or y`, `str.lower` (ASCII range, the case
  relevant to the identifiers of this code base) and `" ".join(s.split())`
  are given explicit executable models;
* the Chainlit session lookup (`cl.user_session.get("user")`) is passed in as
  an explicit `ctxUser` parameter.
-/

/-- BSON-like document values. -/
inductive Val where
  | str : String → Val
  | oid : String → Val
  | intV : Int → Val
  | dt : Int → Val
  | dictV : List (String × Val) → Val
  | arr : List Val → Val
  | null : Val

mutual

/-- Structural equality of values, as Mongo compares them in queries.
An ObjectId never equals a plain string. -/
def Val.beq : Val → Val → Bool
  | .str a, .str b => a == b
  | .oid a, .oid b => a == b
  | .intV a, .intV b => a == b
  | .dt a, .dt b => a == b
  | .dictV a, .dictV b => Val.beqFields a b
  | .arr a, .arr b => Val.beqList a b
  | .null, .null => true
  | _, _ => false

/-- Field-wise equality of embedded documents. -/
def Val.beqFields : List (String × Val) → List (String × Val) → Bool
  | [], [] => true
  | (k, v) :: r, (k2, v2) :: r2 => k == k2 && Val.beq v v2 && Val.beqFields r r2
  | _, _ => false

/-- Element-wise equality of arrays. -/
def Val.beqList : List Val → List Val → Bool
  | [], [] => true
  | v :: r, v2 :: r2 => Val.beq v v2 && Val.beqList r r2
  | _, _ => false

end

/-- A persisted document: an association list of fields (Python dicts and
Mongo documents have unique keys; all operations below preserve that). -/
abbrev Doc := List (String × Val)

/-- Field lookup (`d.get(k)` on a Python dict / field access in a query). -/
def getField (d : Doc) (k : String) : Option Val :=
  match d.find? (fun p => p.1 == k) with
  | some p => some p.2
  | none => none

/-- Key-presence test (`k in d`). -/
def hasField (d : Doc) (k : String) : Bool :=
  d.any (fun p => p.1 == k)

/-- Assignment `d[k] = v`: replace in place if the key exists, else append. -/
def setField (d : Doc) (k : String) (v : Val) : Doc :=
  if hasField d k then d.map (fun p => if p.1 = k then (k, v) else p)
  else d ++ [(k, v)]

/-- Deletion `del d[k]`: drop every entry with the key. -/
def eraseField : Doc → String → Doc
  | [], _ => []
  | p :: rest, k => if p.1 = k then eraseField rest k else p :: eraseField rest k

/-- Python `d.setdefault(k, v)`. -/
def setDefault (d : Doc) (k : String) (v : Val) : Doc :=
  if hasField d k then d else d ++ [(k, v)]

/-- Python truthiness of a value. -/
def Val.truthy : Val → Bool
  | .str s => !s.isEmpty
  | .oid _ => true
  | .intV n => n != 0
  | .dt _ => true
  | .dictV l => !l.isEmpty
  | .arr l => !l.isEmpty
  | .null => false

/-- Truthiness of a `d.get(k)` result (a missing key yields Python `None`). -/
def truthyO : Option Val → Bool
  | some v => v.truthy
  | none => false

/-- Python `a or b` on `d.get(...)` results: the first operand when truthy,
otherwise the second operand unchanged. -/
def pyOr (a b : Option Val) : Option Val :=
  match a with
  | some v => if v.truthy then some v else b
  | none => b

/-- Model of Python `str.lower` on one character (ASCII range). -/
def pyLowerChar (c : Char) : Char :=
  if 65 ≤ c.toNat ∧ c.toNat ≤ 90 then Char.ofNat (c.toNat + 32) else c

/-- Model of Python `str.lower` (ASCII range, which covers the identifiers
this code base handles). -/
def pyLower (s : String) : String :=
  ⟨s.data.map pyLowerChar⟩

/-- Models `_normalize_identifier` (mongo_01) and `_safe_lower` (mongo_03,
mongo_04): lower-case a string, pass any other value through unchanged. -/
def normalizeIdentifierVal : Val → Val
  | .str s => .str (pyLower s)
  | v => v

/-- Model of `bson.objectid.ObjectId.is_valid` on a string: 24 hex digits. -/
def isValidObjectId (s : String) : Bool :=
  s.length == 24 && s.data.all (fun c => c.isDigit || (97 ≤ c.toNat ∧ c.toNat ≤ 102) || (65 ≤ c.toNat ∧ c.toNat ≤ 70))

/-- Model of `ObjectId(s)` for a valid 24-hex-digit string: ObjectIds compare
by their bytes, so the hex is normalized to lower case. -/
def mkObjectId (s : String) : Val :=
  .oid (pyLower s)

/-- Model of `_to_objectid_if_possible` (mongo_01). -/
def toObjectIdIfPossible (s : String) : Val :=
  if isValidObjectId s then mkObjectId s else .str s

/-- Query condition on one field: equality, or `$in` a list. -/
inductive QCond where
  | eqV : Val → QCond
  | inL : List Val → QCond

/-- A Mongo query: a conjunction of per-field conditions. -/
abbrev Query := List (String × QCond)

/-- Whether a document satisfies one condition. Matching a field against
`null` also matches documents missing the field, as Mongo does. -/
def condMatches (d : Doc) (k : String) (c : QCond) : Bool :=
  match c, getField d k with
  | .eqV v, some w => Val.beq w v
  | .eqV v, none => Val.beq v Val.null
  | .inL vs, some w => vs.any (fun v => Val.beq w v)
  | .inL vs, none => vs.any (fun v => Val.beq v Val.null)

/-- Whether a document satisfies a query. -/
def queryMatches (d : Doc) (q : Query) : Bool :=
  q.all (fun p => condMatches d p.1 p.2)

/-- `find(query)`: every matching document, in collection order. -/
def findAll (c : List Doc) (q : Query) : List Doc :=
  c.filter (fun d => queryMatches d q)

/-- `find_one(query)`: the first matching document. -/
def findOne (c : List Doc) (q : Query) : Option Doc :=
  c.find? (fun d => queryMatches d q)

/-- `delete_one(query)`: remove the first matching document; return the new
collection and the deleted count. -/
def deleteOne (c : List Doc) (q : Query) : List Doc × Nat :=
  match c with
  | [] => ([], 0)
  | d :: rest =>
    if queryMatches d q then (rest, 1)
    else
      let r := deleteOne rest q
      (d :: r.1, r.2)

/-- `delete_many(query)`: remove every matching document. -/
def deleteMany (c : List Doc) (q : Query) : List Doc × Nat :=
  (c.filter (fun d => !queryMatches d q), (c.filter (fun d => queryMatches d q)).length)

/-- Apply a `$set` patch to a document. -/
def applySet (d : Doc) (patch : Doc) : Doc :=
  patch.foldl (fun acc p => setField acc p.1 p.2) d

/-- The equality fields of a query, which seed the document inserted by an
upsert that found no match. -/
def upsertSeed (q : Query) : Doc :=
  q.filterMap (fun p => match p.2 with | .eqV v => some (p.1, v) | _ => none)

/-- `update_one(query, {"$set": setF, "$setOnInsert": soi}, upsert)`: patch
the first matching document with `$set` only, or — when nothing matches and
`upsert` is set — insert a document built from the query equality fields,
the `$setOnInsert` fields and the `$set` fields. Returns the new collection
and the matched count. -/
def updateOne (c : List Doc) (q : Query) (setF soi : Doc) (upsert : Bool) : List Doc × Nat :=
  match c with
  | [] => (if upsert then [applySet (applySet (upsertSeed q) soi) setF] else [], 0)
  | d :: rest =>
    if queryMatches d q then (applySet d setF :: rest, 1)
    else
      let r := updateOne rest q setF soi upsert
      (d :: r.1, r.2)

/-- `insert_one`: append the document. -/
def insertOne (c : List Doc) (d : Doc) : List Doc :=
  c ++ [d]

/-- The state of the six collections the adapters use. -/
structure DB where
  users : List Doc
  threads : List Doc
  steps : List Doc
  elements : List Doc
  feedback : List Doc
  sessions : List Doc

/-- Render a value the way Python `str(...)` does where the adapters use it
(on ObjectIds and on `None`). -/
def valToPyStr : Val → String
  | .str s => s
  | .oid s => s
  | .intV n => toString n
  | .dt n => toString n
  | .null => "None"
  | .dictV _ => "\x7b\x7d"
  | .arr _ => "[]"

mutual

/-- Model of `_encode_value`: datetimes to their iso string (rendered here as
the decimal tick), ObjectIds to their hex string, recursing into embedded
documents and arrays. -/
def encodeVal : Val → Val
  | .dt n => .str (toString n)
  | .oid s => .str s
  | .dictV l => .dictV (encodeValFields l)
  | .arr l => .arr (encodeValList l)
  | .str s => .str s
  | .intV n => .intV n
  | .null => .null

/-- `_encode_value` over the fields of an embedded document. -/
def encodeValFields : List (String × Val) → List (String × Val)
  | [] => []
  | (k, v) :: r => (k, encodeVal v) :: encodeValFields r

/-- `_encode_value` over an array. -/
def encodeValList : List Val → List Val
  | [] => []
  | v :: r => encodeVal v :: encodeValList r

end

/-- `_encode_doc` on a document that is known to be non-empty (every call
site below has just set fields on the document, so the `if doc` guard of the
Python helper is always taken). -/
def encodeDoc (d : Doc) : Doc :=
  encodeValFields d

/-- A pagination argument as consulted through `getattr(pagination, attr, None)`:
each attribute may be absent. -/
structure Pagination where
  offset : Option Int
  first : Option Int
  page : Option Int
  size : Option Int
  limit : Option Int

/-- Python `int(x) or fallback` on an integer attribute. -/
def pyOrInt (x fallback : Int) : Int :=
  if x ≠ 0 then x else fallback

/-- Models `_pagination_skip_limit` (mongo_01, lines 69-100) and the identical
`_calculate_pagination` methods of mongo_02 (335-363), mongo_03 (396-429) and
mongo_04 (395-422): defaults (0, 20); `offset`/`first` when present; `page`
and `size` (both truthy) override both; a `limit` attribute overrides the
limit last. -/
def paginationSkipLimit : Option Pagination → Int × Int
  | none => (0, 20)
  | some p =>
    let skip : Int := match p.offset with | some o => pyOrInt o 0 | none => 0
    let limit : Int := match p.first with | some f => pyOrInt f 20 | none => 20
    let sl : Int × Int :=
      match p.page, p.size with
      | some pg, some sz =>
        if pg ≠ 0 ∧ sz ≠ 0 then
          let pageNum := pyOrInt pg 1
          let sizeNum := pyOrInt sz limit
          ((pageNum - 1) * sizeNum, sizeNum)
        else (skip, limit)
      | _, _ => (skip, limit)
    match p.limit with
    | some l => (sl.1, pyOrInt l sl.2)
    | none => sl

/-- The `updated_at` sort key of `list_threads`; documents without a
timestamp sort as tick 0. -/
def docUpdatedAt (d : Doc) : Int :=
  match getField d "updated_at" with
  | some (.dt n) => n
  | some (.intV n) => n
  | _ => 0

/-- The `.sort("updated_at", -1)` cursor stage. -/
def sortByUpdatedAtDesc (l : List Doc) : List Doc :=
  List.insertionSort (fun a b => docUpdatedAt b ≤ docUpdatedAt a) l

/-- Accumulator-style splitter over characters: model of Python `s.split()`
(split on whitespace runs, discard empty fragments). -/
def pyWordsAux : List Char → List Char → List (List Char)
  | [], acc => if acc.isEmpty then [] else [acc.reverse]
  | c :: rest, acc =>
    if c.isWhitespace then
      if acc.isEmpty then pyWordsAux rest [] else acc.reverse :: pyWordsAux rest []
    else pyWordsAux rest (c :: acc)

/-- Model of Python `s.split()`. -/
def pyWords (l : List Char) : List (List Char) :=
  pyWordsAux l []

/-- Model of `" ".join(words)` over character lists. -/
def joinWords : List (List Char) → List Char
  | [] => []
  | [w] => w
  | w :: rest => w ++ ' ' :: joinWords rest

/-- Model of `" ".join(s.strip().split())` (leading and trailing whitespace
is already discarded by `split()`, so the `strip()` is absorbed). -/
def pyCollapseWs (s : String) : String :=
  ⟨joinWords (pyWords s.data)⟩

/-- Python slicing `s[:n]`. -/
def pyTrunc (s : String) (n : Nat) : String :=
  ⟨s.data.take n⟩

/-- Truthiness of `s.strip()`: whether `s` contains a non-whitespace
character. -/
def hasContent (s : String) : Bool :=
  s.data.any (fun c => !c.isWhitespace)

/-- Drop the leading whitespace of a character list. -/
def dropLeadingWs : List Char → List Char
  | [] => []
  | c :: rest => if c.isWhitespace then dropLeadingWs rest else c :: rest

/-- Model of Python `str.strip()`: drop leading and trailing whitespace. -/
def pyStrip (s : String) : String :=
  ⟨(dropLeadingWs (dropLeadingWs s.data).reverse).reverse⟩

/-- A `cl.User` value as the adapters construct it. -/
structure PyUser where
  identifier : Val
  metadata : List (String × Val)

/-- A Chainlit `ThreadFilter` as consulted through `getattr`. -/
structure ThreadFilter where
  userId : Option Val
  chat_profile : Option Val

/-- The response shape shared by `_paginated_response` (mongo_01) and
`CLPaginatedResponse` (mongo_02/mongo_03/mongo_04). -/
structure PaginatedResponse where
  data : List Doc
  total : Nat
  page : Int
  size : Int

/-- The `userIdentifier` normalization mongo_01 and mongo_02 `create_step`
perform first: lower-case the value when truthy, leave the dict alone
otherwise. -/
def normStepUserIdent (d : Doc) : Doc :=
  match getField d "userIdentifier" with
  | some v => if v.truthy then setField d "userIdentifier" (normalizeIdentifierVal v) else d
  | none => d

/-- The id default of `create_step`: `if "id" not in step_dict:
step_dict["id"] = str(uuid.uuid4())`. -/
def ensureStepId (d : Doc) (freshId : String) : Doc :=
  if hasField d "id" then d else setField d "id" (.str freshId)

namespace Mongo01

/-- mongo_01 `get_user` (lines 154-168): lower-case the identifier, return
None for the falsy one, otherwise look the user up by identifier and build a
`cl.User` carrying the stored metadata plus the stringified `_id`. -/
def getUser (users : List Doc) (identifier : String) : Option PyUser :=
  let ident := pyLower identifier
  if ident.isEmpty then none
  else
    match findOne users [("identifier", .eqV (.str ident))] with
    | none => none
    | some doc =>
      some { identifier := (getField doc "identifier").getD Val.null,
             metadata := setField
               (match getField doc "metadata" with
                | some (.dictV l) => l
                | _ => [])
               "_id" (.str (valToPyStr ((getField doc "_id").getD Val.null))) }

/-- mongo_01 `delete_user_session` (lines 193-197): delete by `_id`,
converting the string to an ObjectId when it is a valid one, and report
whether exactly one document was deleted. -/
def deleteUserSession (sessions : List Doc) (sid : String) : List Doc × Bool :=
  let r := deleteOne sessions [("_id", .eqV (toObjectIdIfPossible sid))]
  (r.1, r.2 == 1)

/-- mongo_01 `_normalize_thread_id_in_step` (lines 56-66): compute
`threadId or thread_id`; when truthy, write it under `threadId` and drop
`thread_id`. Returns the id and the rewritten step dict. -/
def normalizeThreadIdInStep (d : Doc) : Option Val × Doc :=
  let tid := pyOr (getField d "threadId") (getField d "thread_id")
  if truthyO tid then
    match tid with
    | some v =>
      let d1 := setField d "threadId" v
      let d2 := if hasField d1 "thread_id" then eraseField d1 "thread_id" else d1
      (tid, d2)
    | none => (tid, d)
  else (tid, d)

/-- mongo_01 `create_step` (lines 244-295): normalize `userIdentifier`,
ensure an id and `created_at`, normalize the thread id field, upsert the
step by id, and — only for a truthy thread id on a `user_message`/`message`
step — upsert the thread document. `freshId`/`now` stand for `uuid.uuid4()`
and `_now()`; `ctxUser` is the user found on the Chainlit session, `none`
when there is no context. Returns `step_dict["id"]` and the new state. -/
def createStep (db : DB) (step0 : Doc) (freshId : String) (now : Int) (ctxUser : Option Val) : Val × DB :=
  let s2 := ensureStepId (normStepUserIdent step0) freshId
  let s3 := setDefault s2 "created_at" (.dt now)
  let tidStep := normalizeThreadIdInStep s3
  let tid := tidStep.1
  let step := tidStep.2
  let stepId := (getField step "id").getD Val.null
  let db1 : DB := { db with steps := (updateOne db.steps [("id", .eqV stepId)] step [] true).1 }
  let stepType := (getField step "type").getD (.str "")
  let isUserMessage := Val.beq stepType (.str "user_message") || Val.beq stepType (.str "message")
  if !isUserMessage || !truthyO tid then (stepId, db1)
  else
    match tid with
    | none => (stepId, db1)
    | some tidV =>
      let userIdent0 := getField step "userIdentifier"
      let userIdent :=
        if truthyO userIdent0 then userIdent0
        else
          match ctxUser with
          | some u => some (normalizeIdentifierVal u)
          | none => none
      let soi : Doc := [("id", tidV), ("created_at", .dt now)]
      let setF0 : Doc := [("updated_at", .dt now)]
      let setF1 :=
        if truthyO (getField step "user_id") then setF0 ++ [("user_id", (getField step "user_id").getD Val.null)]
        else setF0
      let setF2 :=
        if truthyO userIdent then setF1 ++ [("userIdentifier", userIdent.getD Val.null)]
        else setF1
      let setF3 :=
        if truthyO (getField step "chat_profile") then setF2 ++ [("chat_profile", (getField step "chat_profile").getD Val.null)]
        else setF2
      (stepId, { db1 with threads := (updateOne db1.threads [("id", .eqV tidV)] setF3 soi true).1 })

/-- mongo_01 `get_thread_author` (lines 309-312): first thread with the given
id, its `userIdentifier` through `_normalize_identifier`; a missing document,
a missing field or a stored null all give None. -/
def getThreadAuthor (threads : List Doc) (threadId : String) : Option Val :=
  match findOne threads [("id", .eqV (.str threadId))] with
  | none => none
  | some t =>
    match getField t "userIdentifier" with
    | none => none
    | some Val.null => none
    | some v => some (normalizeIdentifierVal v)

/-- mongo_01 `_prepare_thread_item` (lines 111-125). -/
def prepareThreadItem (now : Int) (it : Doc) : Doc :=
  let it1 :=
    if !hasField it "id" && truthyO (getField it "_id") then
      setField it "id" (.str (valToPyStr ((getField it "_id").getD Val.null)))
    else it
  let it2 := setDefault it1 "name" (.str "Untitled")
  let it3 := setDefault it2 "created_at" (.dt now)
  let it4 := setDefault it3 "updated_at" (.dt now)
  let it5 := setField it4 "createdAt" (encodeVal ((getField it4 "created_at").getD Val.null))
  let it6 := setField it5 "updatedAt" (encodeVal ((getField it5 "updated_at").getD Val.null))
  encodeDoc it6

/-- mongo_01 `list_threads` user resolution (lines 328-333): the ObjectId
lookup for a valid ObjectId string, then the fallback lookup by the
normalized identifier. -/
def resolveListUser (users : List Doc) (userId : Val) : Option Doc :=
  let byOid : Option Doc :=
    match userId with
    | .str s => if isValidObjectId s then findOne users [("_id", .eqV (mkObjectId s))] else none
    | _ => none
  match byOid with
  | some d => some d
  | none => findOne users [("identifier", .eqV (normalizeIdentifierVal userId))]

/-- mongo_01 `list_threads` (lines 314-357): resolve the user by ObjectId and
fall back to the lower-cased identifier, return the empty page when neither
resolves, otherwise filter threads by the stored identifier (and truthy
chat profile), sort by `updated_at` descending, apply skip/limit and prepare
each item. Returns `none` only for the executions Mongo/Motor reject
(negative skip, negative `to_list` length). -/
def listThreads (db : DB) (pag : Option Pagination) (filters : ThreadFilter) (now : Int) : Option PaginatedResponse :=
  let userId := filters.userId
  if !truthyO userId then some ⟨[], 0, 1, 0⟩
  else
    let userDoc : Option Doc :=
      match userId with
      | some v => resolveListUser db.users v
      | none => none
    match userDoc with
    | none => some ⟨[], 0, 1, 0⟩
    | some udoc =>
      let q0 : Query := [("userIdentifier", .eqV ((getField udoc "identifier").getD Val.null))]
      let q :=
        match filters.chat_profile with
        | some v => if v.truthy then q0 ++ [("chat_profile", .eqV v)] else q0
        | none => q0
      let sl := paginationSkipLimit pag
      let skip := sl.1
      let limit := sl.2
      if skip < 0 ∨ limit < 0 then none
      else
        let total := (findAll db.threads q).length
        let items := (((sortByUpdatedAtDesc (findAll db.threads q)).drop skip.toNat).take limit.toNat).map (prepareThreadItem now)
        let pageNumber : Int := if limit ≠ 0 then skip / limit + 1 else 1
        some ⟨items, total, pageNumber, if limit ≠ 0 then limit else (items.length : Int)⟩

/-- mongo_01 `delete_thread` (lines 425-458): delete the thread document, the
steps and elements under both field spellings, then collect step ids — from
the already-emptied steps collection — and delete feedback by `threadId` and
by those (always absent) step ids. -/
def deleteThread (db : DB) (threadId : String) : Bool × DB :=
  let threads2 := (deleteOne db.threads [("id", .eqV (.str threadId))]).1
  let steps1 := (deleteMany db.steps [("threadId", .eqV (.str threadId))]).1
  let steps2 := (deleteMany steps1 [("thread_id", .eqV (.str threadId))]).1
  let elements1 := (deleteMany db.elements [("threadId", .eqV (.str threadId))]).1
  let elements2 := (deleteMany elements1 [("thread_id", .eqV (.str threadId))]).1
  let stepIds :=
    (findAll steps2 [("threadId", .eqV (.str threadId))]).filterMap
      (fun s => if truthyO (getField s "id") then getField s "id" else none)
    ++ (findAll steps2 [("thread_id", .eqV (.str threadId))]).filterMap
      (fun s => if truthyO (getField s "id") then getField s "id" else none)
  let feedback1 := (deleteMany db.feedback [("threadId", .eqV (.str threadId))]).1
  let feedback2 := if stepIds.isEmpty then feedback1 else (deleteMany feedback1 [("forId", .inL stepIds)]).1
  (true, { db with threads := threads2, steps := steps2, elements := elements2, feedback := feedback2 })

end Mongo01

namespace Mongo02

/-- mongo_02 `create_user` (lines 86-108): lower-case a truthy identifier (no
falsiness guard before the write), upsert by identifier with `$setOnInsert`
only, read the user back. Returns the new users collection and the returned
`cl.User`. -/
def createUser (users : List Doc) (u : PyUser) (now : Int) : List Doc × PyUser :=
  let identV := if u.identifier.truthy then normalizeIdentifierVal u.identifier else u.identifier
  let payload : Doc := [("identifier", identV), ("metadata", .dictV u.metadata), ("created_at", .dt now)]
  let users2 := (updateOne users [("identifier", .eqV identV)] [] payload true).1
  let doc := findOne users2 [("identifier", .eqV identV)]
  (users2,
   { identifier := identV,
     metadata := setField u.metadata "_id"
       (.str (valToPyStr (match doc with
                          | some d => (getField d "_id").getD Val.null
                          | none => Val.null))) })

/-- mongo_02 `get_user` (lines 73-84): lower-case a truthy identifier and look
the user up by it. -/
def getUser (users : List Doc) (identifier : String) : Option PyUser :=
  let ident := if identifier.isEmpty then identifier else pyLower identifier
  match findOne users [("identifier", .eqV (.str ident))] with
  | none => none
  | some doc =>
    some { identifier := (getField doc "identifier").getD Val.null,
           metadata := setField
             (match getField doc "metadata" with
              | some (.dictV l) => l
              | _ => [])
             "_id" (.str (valToPyStr ((getField doc "_id").getD Val.null))) }

/-- mongo_02 `delete_user_session` (lines 110-115): delete by `_id` compared
as the raw string, and return True unconditionally. -/
def deleteUserSession (sessions : List Doc) (sid : String) : List Doc × Bool :=
  ((deleteOne sessions [("_id", .eqV (.str sid))]).1, true)

/-- mongo_02 `create_step` (lines 165-242): lower-case a truthy
`userIdentifier`, ensure id and a truthy `created_at`, `insert_one` the raw
dict, and only for a `user_message`/`message` step with a truthy thread id
(read as `thread_id or threadId`) fix the stored copy with a
`$set {threadId}` and upsert the thread. The inserted document keeps its
`thread_id` key: only the in-memory dict drops it. -/
def createStep (db : DB) (step0 : Doc) (freshId : String) (now : Int) (ctxUser : Option Val) : Val × DB :=
  let s2 := ensureStepId (normStepUserIdent step0) freshId
  let s3 := if truthyO (getField s2 "created_at") then s2 else setField s2 "created_at" (.dt now)
  let stepId := (getField s3 "id").getD Val.null
  let db1 : DB := { db with steps := insertOne db.steps s3 }
  let stepType := (getField s3 "type").getD (.str "")
  let isUserMessage := Val.beq stepType (.str "user_message") || Val.beq stepType (.str "message")
  if !isUserMessage then (stepId, db1)
  else
    let tid := pyOr (getField s3 "thread_id") (getField s3 "threadId")
    if !truthyO tid then (stepId, db1)
    else
      match tid with
      | none => (stepId, db1)
      | some tidV =>
        let s4 := setField s3 "threadId" tidV
        let s5 := if hasField s4 "thread_id" then eraseField s4 "thread_id" else s4
        let db2 : DB := { db1 with steps := (updateOne db1.steps [("id", .eqV stepId)] [("threadId", tidV)] [] false).1 }
        let userIdent0 := getField s5 "userIdentifier"
        let userIdent := if truthyO userIdent0 then userIdent0 else ctxUser
        let soi : Doc := [("id", tidV), ("created_at", .dt now)]
        let setF0 : Doc := [("updated_at", .dt now)]
        let setF1 :=
          if truthyO (getField s5 "user_id") then setF0 ++ [("user_id", (getField s5 "user_id").getD Val.null)]
          else setF0
        let setF2 :=
          if truthyO userIdent then
            setF1 ++ [("userIdentifier", .str (pyLower (valToPyStr (userIdent.getD Val.null))))]
          else setF1
        let setF3 :=
          if truthyO (getField s5 "chat_profile") then setF2 ++ [("chat_profile", (getField s5 "chat_profile").getD Val.null)]
          else setF2
        (stepId, { db2 with threads := (updateOne db2.threads [("id", .eqV tidV)] setF3 soi true).1 })

/-- mongo_02 `get_thread_author` (lines 258-263): `author.lower() if author
else None` — a missing document, a missing field, a stored null or an empty
string all give None. -/
def getThreadAuthor (threads : List Doc) (threadId : String) : Option Val :=
  match findOne threads [("id", .eqV (.str threadId))] with
  | none => none
  | some t =>
    match getField t "userIdentifier" with
    | some v => if v.truthy then some (normalizeIdentifierVal v) else none
    | none => none

end Mongo02

namespace Mongo03

/-- mongo_03 `delete_user_session` (lines 237-243): delete by the document's
own string `id` and report whether exactly one document was deleted. -/
def deleteUserSession (sessions : List Doc) (sid : String) : List Doc × Bool :=
  let r := deleteOne sessions [("id", .eqV (.str sid))]
  (r.1, r.2 == 1)

/-- mongo_03 `create_step` (lines 299-367): ensure id and timestamps,
lower-case the `userIdentifier` (falling back to the Chainlit session),
normalize the thread id field (the `thread_id` key is dropped even when the
id is falsy), upsert the step, and only for a `user_message`/`message` step
with a truthy thread id insert the thread when absent or patch its last
activity when present. -/
def createStep (db : DB) (step0 : Doc) (freshId : String) (now : Int) (ctxUser : Option Val) : Val × DB :=
  let s1 := setDefault step0 "id" (.str freshId)
  let s2 := setDefault s1 "created_at" (.dt now)
  let s3 := setDefault s2 "updated_at" (.dt now)
  let uiv := getField s3 "userIdentifier"
  let s4 :=
    if truthyO uiv then setField s3 "userIdentifier" (normalizeIdentifierVal (uiv.getD Val.null))
    else
      match ctxUser with
      | some u => if u.truthy then setField s3 "userIdentifier" (normalizeIdentifierVal u) else s3
      | none => s3
  let tid := pyOr (getField s4 "threadId") (getField s4 "thread_id")
  let s5 :=
    match tid with
    | some v => if v.truthy then setField s4 "threadId" v else s4
    | none => s4
  let s6 := if hasField s5 "thread_id" then eraseField s5 "thread_id" else s5
  let stepId := (getField s6 "id").getD Val.null
  let db1 : DB := { db with steps := (updateOne db.steps [("id", .eqV stepId)] s6 [] true).1 }
  let stepTypeS :=
    match pyOr (getField s6 "type") (some (.str "")) with
    | some (.str s) => pyStrip s
    | _ => ""
  let isUserMessage := stepTypeS == "user_message" || stepTypeS == "message"
  if !isUserMessage then (stepId, db1)
  else if !truthyO tid then (stepId, db1)
  else
    match tid with
    | none => (stepId, db1)
    | some tidV =>
      match findOne db1.threads [("id", .eqV tidV)] with
      | none =>
        let threadDoc : Doc :=
          [("id", tidV),
           ("name", (pyOr (getField s6 "threadName") (pyOr (getField s6 "name") (some (.str "Untitled")))).getD Val.null),
           ("userIdentifier", (getField s6 "userIdentifier").getD Val.null),
           ("chat_profile", (getField s6 "chat_profile").getD Val.null),
           ("created_at", .dt now),
           ("updated_at", .dt now),
           ("metadata", .dictV []),
           ("tags", .arr [])]
        (stepId, { db1 with threads := insertOne db1.threads threadDoc })
      | some _ =>
        let p0 : Doc := [("updated_at", .dt now)]
        let p1 :=
          if truthyO (getField s6 "userIdentifier") then p0 ++ [("userIdentifier", (getField s6 "userIdentifier").getD Val.null)]
          else p0
        let p2 :=
          if truthyO (getField s6 "chat_profile") then p1 ++ [("chat_profile", (getField s6 "chat_profile").getD Val.null)]
          else p1
        (stepId, { db1 with threads := (updateOne db1.threads [("id", .eqV tidV)] p2 [] false).1 })

/-- mongo_03 `get_thread_author` (lines 391-394), identical in behaviour to
mongo_01's. -/
def getThreadAuthor (threads : List Doc) (threadId : String) : Option Val :=
  match findOne threads [("id", .eqV (.str threadId))] with
  | none => none
  | some t =>
    match getField t "userIdentifier" with
    | none => none
    | some Val.null => none
    | some v => some (normalizeIdentifierVal v)

/-- mongo_03 `_prepare_thread_item` (lines 431-445): defaults first, the id
backfill last. -/
def prepareThreadItem (now : Int) (it : Doc) : Doc :=
  let it1 := setDefault it "name" (.str "Untitled")
  let it2 := setDefault it1 "created_at" (.dt now)
  let it3 := setDefault it2 "updated_at" (.dt now)
  let it4 := setField it3 "createdAt" (encodeVal ((getField it3 "created_at").getD Val.null))
  let it5 := setField it4 "updatedAt" (encodeVal ((getField it4 "updated_at").getD Val.null))
  let it6 :=
    if !hasField it5 "id" && truthyO (getField it5 "_id") then
      setField it5 "id" (.str (valToPyStr ((getField it5 "_id").getD Val.null)))
    else it5
  encodeDoc it6

/-- mongo_03 `list_threads` user resolution (lines 457-462): the ObjectId
lookup for a valid ObjectId string, the lower-cased-identifier lookup for any
other non-empty string, with no fallback from one to the other. -/
def resolveListUser (users : List Doc) (userId : Option Val) : Option Doc :=
  match userId with
  | some (.str s) =>
    if isValidObjectId s then findOne users [("_id", .eqV (mkObjectId s))]
    else if !s.isEmpty then findOne users [("identifier", .eqV (.str (pyLower s)))]
    else none
  | _ => none

/-- mongo_03 `list_threads` (lines 447-486): resolve the user by ObjectId for
a valid ObjectId string, else by the lower-cased identifier (no fallback from
one to the other), return the empty page when unresolved, otherwise filter,
sort, skip/limit and prepare. The page size reported is always the limit. -/
def listThreads (db : DB) (pag : Option Pagination) (filters : ThreadFilter) (now : Int) : Option PaginatedResponse :=
  let userId := filters.userId
  let userDoc : Option Doc := resolveListUser db.users userId
  match userDoc with
  | none => some ⟨[], 0, 1, 0⟩
  | some udoc =>
    let q0 : Query := [("userIdentifier", .eqV ((getField udoc "identifier").getD Val.null))]
    let q :=
      match filters.chat_profile with
      | some v => if v.truthy then q0 ++ [("chat_profile", .eqV v)] else q0
      | none => q0
    let sl := paginationSkipLimit pag
    let skip := sl.1
    let limit := sl.2
    if skip < 0 ∨ limit < 0 then none
    else
      let total := (findAll db.threads q).length
      let items := (((sortByUpdatedAtDesc (findAll db.threads q)).drop skip.toNat).take limit.toNat).map (prepareThreadItem now)
      let pageNumber : Int := if limit ≠ 0 then skip / limit + 1 else 1
      some ⟨items, total, pageNumber, limit⟩

/-- mongo_03 `delete_thread` (lines 554-599): collect the ids of the steps
stored under `threadId` first, delete feedback by `threadId` and by those
step ids, delete elements, sessions and steps by `threadId`, then the thread
document itself. Steps persisted under the legacy `thread_id` spelling are
not touched. -/
def deleteThread (db : DB) (threadId : String) : Bool × DB :=
  let stepIds :=
    (findAll db.steps [("threadId", .eqV (.str threadId))]).filterMap
      (fun s => if truthyO (getField s "id") then getField s "id" else none)
  let feedback1 := (deleteMany db.feedback [("threadId", .eqV (.str threadId))]).1
  let feedback2 := if stepIds.isEmpty then feedback1 else (deleteMany feedback1 [("forId", .inL stepIds)]).1
  let elements1 := (deleteMany db.elements [("threadId", .eqV (.str threadId))]).1
  let sessions1 := (deleteMany db.sessions [("threadId", .eqV (.str threadId))]).1
  let steps1 := (deleteMany db.steps [("threadId", .eqV (.str threadId))]).1
  let thr := deleteOne db.threads [("id", .eqV (.str threadId))]
  (thr.2 == 1,
   { users := db.users, threads := thr.1, steps := steps1,
     elements := elements1, feedback := feedback2, sessions := sessions1 })

end Mongo03

namespace Mongo04

/-- mongo_04 `_derive_thread_name_from_step` helper: the first candidate in
the message-text priority list that is a non-blank string. -/
def firstTextCandidate : List (Option Val) → Option String
  | [] => none
  | some (Val.str s) :: rest => if hasContent s then some s else firstTextCandidate rest
  | _ :: rest => firstTextCandidate rest

/-- mongo_04 `_derive_thread_name_from_step` (lines 51-80): take the first
truthy of `threadName`/`thread_title`/`name` and use it when it is a
non-blank string; otherwise try `message.content`, `input`, `content`,
`text`, `output` in order, each used only when a non-blank string; otherwise
fall back to "New Chat". A used candidate is whitespace-collapsed and
truncated to `max_len`. -/
def deriveThreadNameFromStep (step : Doc) (maxLen : Nat) : String :=
  let explicit := pyOr (getField step "threadName") (pyOr (getField step "thread_title") (getField step "name"))
  let fromCandidates :=
    let cands0 : List (Option Val) := [getField step "input", getField step "content", getField step "text", getField step "output"]
    let cands :=
      match getField step "message" with
      | some (.dictV m) => getField m "content" :: cands0
      | _ => cands0
    match firstTextCandidate cands with
    | some s => pyTrunc (pyCollapseWs s) maxLen
    | none => "New Chat"
  match explicit with
  | some (.str s) => if hasContent s then pyTrunc (pyCollapseWs s) maxLen else fromCandidates
  | _ => fromCandidates

end Mongo04

namespace Telemetry

/-- The configuration `init_metrics` receives and stores on the provider. -/
structure OtelConfig where
  serviceName : String
  collectorUrl : String
  intervalMs : Int
  serviceVersion : String

/-- One emitted measurement: instrument name, value, labels. -/
structure MetricEvent where
  instrument : String
  value : Int
  labels : List (String × String)

/-- The mutable state of `MetricsCollector` (src/telemetry.py). Instruments
are modelled by their names; `inited` models `self._initialized`. -/
structure MetricsCollector where
  meter : Option String
  meterProvider : Option OtelConfig
  userCounter : Option String
  toolCallsCounter : Option String
  toolCallErrorsCounter : Option String
  toolResponseTimeHistogram : Option String
  featureResponseTimeHistogram : Option String
  featuresCounter : Option String
  counters : List String
  storyOpenCounter : Option String
  refineCompletedCounter : Option String
  storyCreatedCounter : Option String
  featureCreatedCounter : Option String
  events : List MetricEvent
  inited : Bool

/-- `MetricsCollector.__init__` (lines 20-39): everything unset. -/
def freshCollector : MetricsCollector :=
  { meter := none, meterProvider := none, userCounter := none,
    toolCallsCounter := none, toolCallErrorsCounter := none,
    toolResponseTimeHistogram := none, featureResponseTimeHistogram := none,
    featuresCounter := none, counters := [],
    storyOpenCounter := none, refineCompletedCounter := none,
    storyCreatedCounter := none, featureCreatedCounter := none,
    events := [], inited := false }

/-- `init_metrics` (lines 41-135): a no-op when already initialized,
otherwise build the provider from the configuration, create every named
instrument and mark the collector initialized. -/
def initMetrics (s : MetricsCollector) (cfg : OtelConfig) : MetricsCollector :=
  if s.inited then s
  else
    { meter := some cfg.serviceName,
      meterProvider := some cfg,
      userCounter := some "users",
      toolCallsCounter := some "toolCalls",
      toolCallErrorsCounter := some "toolCallErrors",
      storyOpenCounter := some "story_open",
      refineCompletedCounter := some "refine_completed",
      storyCreatedCounter := some "story_created",
      featureCreatedCounter := some "feature_created",
      featuresCounter := some "feature_usage",
      toolResponseTimeHistogram := some "tool_response_time",
      featureResponseTimeHistogram := some "feature_response_time",
      counters := s.counters,
      events := s.events,
      inited := true }

/-- The error `_ensure_initialized` (lines 137-141) raises. -/
def notInitedMsg : String :=
  "MetricsCollector not initialized. Call init_metrics(...) once at startup."

/-- The raise condition of `_ensure_initialized`. -/
def ensureRaises (s : MetricsCollector) : Bool :=
  !s.inited || s.meter.isNone

/-- `increment_counter` (lines 143-154): create the dynamic counter on first
use, then add 1. -/
def incrementCounter (s : MetricsCollector) (counter : String) (labels : List (String × String)) :
    Except String MetricsCollector :=
  if ensureRaises s then .error notInitedMsg
  else
    let s1 := if counter ∈ s.counters then s else { s with counters := s.counters ++ [counter] }
    .ok { s1 with events := s1.events ++ [⟨counter, 1, labels⟩] }

/-- `add_user` (lines 156-160). -/
def addUser (s : MetricsCollector) (username : String) : Except String MetricsCollector :=
  if ensureRaises s then .error notInitedMsg
  else .ok { s with events := s.events ++ [⟨"users", 1, [("username", username)]⟩] }

/-- `add_feature_usage` (lines 162-169): one `feature_usage` count, then
`add_user`. -/
def addFeatureUsage (s : MetricsCollector) (featureName username : String) :
    Except String MetricsCollector :=
  if ensureRaises s then .error notInitedMsg
  else addUser { s with events := s.events ++ [⟨"feature_usage", 1, [("featureName", featureName), ("username", username)]⟩] } username

/-- `add_tool_call` (lines 171-178). -/
def addToolCall (s : MetricsCollector) (toolName username : String) :
    Except String MetricsCollector :=
  if ensureRaises s then .error notInitedMsg
  else addUser { s with events := s.events ++ [⟨"toolCalls", 1, [("toolName", toolName), ("username", username)]⟩] } username

/-- `add_tool_call_error` (lines 180-187). -/
def addToolCallError (s : MetricsCollector) (toolName username : String) :
    Except String MetricsCollector :=
  if ensureRaises s then .error notInitedMsg
  else addUser { s with events := s.events ++ [⟨"toolCallErrors", 1, [("toolName", toolName), ("username", username)]⟩] } username

/-- `add_tool_response_time` (lines 189-202); the float measurement is
modelled as an integer tick. -/
def addToolResponseTime (s : MetricsCollector) (toolName : String) (responseTime : Int) (username : String) :
    Except String MetricsCollector :=
  if ensureRaises s then .error notInitedMsg
  else addUser { s with events := s.events ++ [⟨"tool_response_time", responseTime, [("toolName", toolName), ("username", username)]⟩] } username

/-- `add_feature_response_time` (lines 204-219). -/
def addFeatureResponseTime (s : MetricsCollector) (featureName : String) (responseTime : Int) (username : String) :
    Except String MetricsCollector :=
  if ensureRaises s then .error notInitedMsg
  else addUser { s with events := s.events ++ [⟨"feature_response_time", responseTime, [("featureName", featureName), ("username", username)]⟩] } username

/-- `add_story_open` (lines 221-226). -/
def addStoryOpen (s : MetricsCollector) (username : String) : Except String MetricsCollector :=
  if ensureRaises s then .error notInitedMsg
  else addUser { s with events := s.events ++ [⟨"story_open", 1, [("username", username)]⟩] } username

/-- `add_refine_completed` (lines 228-233). -/
def addRefineCompleted (s : MetricsCollector) (username : String) : Except String MetricsCollector :=
  if ensureRaises s then .error notInitedMsg
  else addUser { s with events := s.events ++ [⟨"refine_completed", 1, [("username", username)]⟩] } username

/-- `add_story_created` (lines 235-240). -/
def addStoryCreated (s : MetricsCollector) (username : String) : Except String MetricsCollector :=
  if ensureRaises s then .error notInitedMsg
  else addUser { s with events := s.events ++ [⟨"story_created", 1, [("username", username)]⟩] } username

/-- `add_feature_created` (lines 242-247). -/
def addFeatureCreated (s : MetricsCollector) (username : String) : Except String MetricsCollector :=
  if ensureRaises s then .error notInitedMsg
  else addUser { s with events := s.events ++ [⟨"feature_created", 1, [("username", username)]⟩] } username

/-- Whether an `Except` result models a raised exception. -/
def raised {α : Type} : Except String α → Bool
  | .error _ => true
  | .ok _ => false

/-- The collector states reachable through the class interface: the
constructed state, followed by any sequence of `init_metrics` calls and
successful recording calls. -/
inductive Reachable : MetricsCollector → Prop where
  | fresh : Reachable freshCollector
  | init (s : MetricsCollector) (cfg : OtelConfig) : Reachable s → Reachable (initMetrics s cfg)
  | incr (s s2 : MetricsCollector) (c : String) (l : List (String × String)) :
      Reachable s → incrementCounter s c l = .ok s2 → Reachable s2
  | user (s s2 : MetricsCollector) (u : String) :
      Reachable s → addUser s u = .ok s2 → Reachable s2
  | featureUsage (s s2 : MetricsCollector) (f u : String) :
      Reachable s → addFeatureUsage s f u = .ok s2 → Reachable s2
  | toolCall (s s2 : MetricsCollector) (t u : String) :
      Reachable s → addToolCall s t u = .ok s2 → Reachable s2
  | toolCallError (s s2 : MetricsCollector) (t u : String) :
      Reachable s → addToolCallError s t u = .ok s2 → Reachable s2
  | toolResponseTime (s s2 : MetricsCollector) (t : String) (r : Int) (u : String) :
      Reachable s → addToolResponseTime s t r u = .ok s2 → Reachable s2
  | featureResponseTime (s s2 : MetricsCollector) (f : String) (r : Int) (u : String) :
      Reachable s → addFeatureResponseTime s f r u = .ok s2 → Reachable s2
  | storyOpen (s s2 : MetricsCollector) (u : String) :
      Reachable s → addStoryOpen s u = .ok s2 → Reachable s2
  | refineCompleted (s s2 : MetricsCollector) (u : String) :
      Reachable s → addRefineCompleted s u = .ok s2 → Reachable s2
  | storyCreated (s s2 : MetricsCollector) (u : String) :
      Reachable s → addStoryCreated s u = .ok s2 → Reachable s2
  | featureCreated (s s2 : MetricsCollector) (u : String) :
      Reachable s → addFeatureCreated s u = .ok s2 → Reachable s2

end Telemetry

/-- Spec-side abbreviation used by the claim statements below: the id
`create_step` returns — the step's own `id` when the key is present, else the
generated uuid. -/
def expectedStepId (step0 : Doc) (freshId : String) : Val :=
  match getField step0 "id" with
  | some v => v
  | none => .str freshId

/-- Spec-side abbreviation: the thread id a step carries, as mongo_01 and
mongo_03 resolve it (`threadId or thread_id`). -/
def resolvedTid (d : Doc) : Option Val :=
  pyOr (getField d "threadId") (getField d "thread_id")

/-- The keys of a document. A document modelling a Python dict has
`Nodup` keys. -/
def docKeys (d : Doc) : List String :=
  d.map Prod.fst

/-- The step type as mongo_01 and mongo_02 read it: `step_dict.get("type", "")`. -/
def stepTypeVal (d : Doc) : Val :=
  (getField d "type").getD (.str "")

/-- The step type as mongo_03 reads it: `(step.get("type") or "").strip()`. -/
def stepTypeStripped (d : Doc) : String :=
  match pyOr (getField d "type") (some (.str "")) with
  | some (.str s) => pyStrip s
  | _ => ""

/-- Whether a type value is one of the two user-message types. -/
def isUserMessageVal (v : Val) : Bool :=
  Val.beq v (.str "user_message") || Val.beq v (.str "message")

/-- Spec-side abbreviation for C9: the candidate list of
`_derive_thread_name_from_step` in priority order. -/
def threadNameTextCandidates (step : Doc) : List (Option Val) :=
  match getField step "message" with
  | some (.dictV m) =>
    getField m "content" :: [getField step "input", getField step "content", getField step "text", getField step "output"]
  | _ => [getField step "input", getField step "content", getField step "text", getField step "output"]

/-- Spec-side abbreviation for C9: the text `_derive_thread_name_from_step`
selects, when any — the first truthy explicit value when it is a non-blank
string, else the first non-blank string candidate. -/
def threadNameSource (step : Doc) : Option String :=
  match pyOr (getField step "threadName") (pyOr (getField step "thread_title") (getField step "name")) with
  | some (.str s) =>
    if hasContent s then some s else Mongo04.firstTextCandidate (threadNameTextCandidates step)
  | _ => Mongo04.firstTextCandidate (threadNameTextCandidates step)

theorem toNat_ofNat_of_valid {n : Nat} (h : n.isValidChar) : (Char.ofNat n).toNat = n := by
  simp only [Char.ofNat, dif_pos h, Char.ofNatAux, Char.toNat, UInt32.toNat]
  simp

theorem pyLowerChar_idem (c : Char) : pyLowerChar (pyLowerChar c) = pyLowerChar c := by
  unfold pyLowerChar
  split
  · rename_i h
    have hval : (c.toNat + 32).isValidChar := by
      left
      omega
    have hv : (Char.ofNat (c.toNat + 32)).toNat = c.toNat + 32 := toNat_ofNat_of_valid hval
    rw [if_neg]
    omega
  · rfl

theorem pyLower_idem (s : String) : pyLower (pyLower s) = pyLower s := by
  unfold pyLower
  simp only [List.map_map]
  have h : ∀ c ∈ s.data, (pyLowerChar ∘ pyLowerChar) c = pyLowerChar c := fun c _ => pyLowerChar_idem c
  rw [List.map_congr_left h]

theorem Val.beq_str_iff (w : Val) (s : String) : Val.beq w (.str s) = true ↔ w = .str s := by
  cases w <;> simp [Val.beq]

theorem getField_cons (p : String × Val) (d : Doc) (k : String) :
    getField (p :: d) k = if p.1 = k then some p.2 else getField d k := by
  by_cases h : p.1 = k <;> simp [getField, List.find?_cons, h]

theorem hasField_cons (p : String × Val) (d : Doc) (k : String) :
    hasField (p :: d) k = if p.1 = k then true else hasField d k := by
  by_cases h : p.1 = k <;> simp [hasField, List.any_cons, h]

theorem getField_eq_none_of_not_has (d : Doc) (k : String) (h : hasField d k = false) :
    getField d k = none := by
  induction d with
  | nil => rfl
  | cons p rest ih =>
    rw [hasField_cons] at h
    rw [getField_cons]
    by_cases hp : p.1 = k
    · simp [hp] at h
    · simp only [hp, if_false] at h ⊢
      exact ih h

theorem getField_isSome_of_has (d : Doc) (k : String) (h : hasField d k = true) :
    ∃ v, getField d k = some v := by
  induction d with
  | nil => simp [hasField] at h
  | cons p rest ih =>
    rw [hasField_cons] at h
    rw [getField_cons]
    by_cases hp : p.1 = k
    · exact ⟨p.2, by simp [hp]⟩
    · simp only [hp, if_false] at h ⊢
      exact ih h

theorem getField_append (d1 d2 : Doc) (k : String) :
    getField (d1 ++ d2) k = match getField d1 k with
                            | some v => some v
                            | none => getField d2 k := by
  induction d1 with
  | nil => simp [getField]
  | cons p rest ih =>
    by_cases h : p.1 = k <;> simp [getField_cons, h, ih]

theorem getField_map_repl_self (d : Doc) (k : String) (v : Val) (h : hasField d k = true) :
    getField (d.map (fun p => if p.1 = k then (k, v) else p)) k = some v := by
  induction d with
  | nil => simp [hasField] at h
  | cons p rest ih =>
    rw [hasField_cons] at h
    by_cases hp : p.1 = k
    · simp [getField_cons, hp]
    · simp only [hp, if_false] at h
      simp [getField_cons, hp, ih h]

theorem getField_map_repl_ne (d : Doc) (k1 k2 : String) (v : Val) (h : k2 ≠ k1) :
    getField (d.map (fun p => if p.1 = k1 then (k1, v) else p)) k2 = getField d k2 := by
  induction d with
  | nil => rfl
  | cons p rest ih =>
    by_cases hp : p.1 = k1
    · have h2 : ¬ (k1 = k2) := fun hh => h hh.symm
      simp [getField_cons, hp, h2, ih]
    · simp [getField_cons, hp, ih]

theorem docKeys_map_repl (d : Doc) (k : String) (v : Val) :
    docKeys (d.map (fun p => if p.1 = k then (k, v) else p)) = docKeys d := by
  induction d with
  | nil => rfl
  | cons p rest ih =>
    by_cases hp : p.1 = k <;> simp [docKeys, hp] <;> simpa [docKeys] using ih

theorem hasField_eq_keys_any (d : Doc) (k : String) :
    hasField d k = (docKeys d).any (fun x => x == k) := by
  induction d with
  | nil => rfl
  | cons p rest ih =>
    simp only [hasField, docKeys, List.any_cons, List.map_cons] at ih ⊢
    rw [ih]

theorem hasField_map_repl (d : Doc) (k1 k2 : String) (v : Val) :
    hasField (d.map (fun p => if p.1 = k1 then (k1, v) else p)) k2 = hasField d k2 := by
  rw [hasField_eq_keys_any, hasField_eq_keys_any, docKeys_map_repl]

theorem hasField_append (d1 d2 : Doc) (k : String) :
    hasField (d1 ++ d2) k = (hasField d1 k || hasField d2 k) := by
  simp [hasField, List.any_append]

theorem getField_setField_self (d : Doc) (k : String) (v : Val) :
    getField (setField d k v) k = some v := by
  unfold setField
  by_cases h : hasField d k
  · simp only [h, if_true]
    exact getField_map_repl_self d k v h
  · simp only [h, Bool.false_eq_true, if_false]
    rw [getField_append]
    rw [getField_eq_none_of_not_has d k (by simpa using h)]
    simp [getField_cons]

theorem getField_setField_ne (d : Doc) (k1 k2 : String) (v : Val) (h : k2 ≠ k1) :
    getField (setField d k1 v) k2 = getField d k2 := by
  unfold setField
  by_cases hh : hasField d k1
  · simp only [hh, if_true]
    exact getField_map_repl_ne d k1 k2 v h
  · simp only [hh, Bool.false_eq_true, if_false]
    rw [getField_append, getField_cons]
    have h2 : ¬ (k1 = k2) := fun heq => h heq.symm
    simp only [h2, if_false]
    cases getField d k2 <;> simp [getField]

theorem hasField_setField (d : Doc) (k1 k2 : String) (v : Val) :
    hasField (setField d k1 v) k2 = (hasField d k2 || k2 == k1) := by
  unfold setField
  by_cases hh : hasField d k1
  · simp only [hh, if_true]
    rw [hasField_map_repl]
    by_cases hk : k2 = k1
    · subst hk
      simp [hh]
    · simp [hk]
  · simp only [hh, Bool.false_eq_true, if_false]
    rw [hasField_append, hasField_cons]
    by_cases hk : k1 = k2
    · subst hk
      simp [hasField]
    · have hk2 : ¬ (k2 = k1) := fun heq => hk heq.symm
      simp [hk, hk2, hasField]

theorem getField_setDefault_ne (d : Doc) (k1 k2 : String) (v : Val) (h : k2 ≠ k1) :
    getField (setDefault d k1 v) k2 = getField d k2 := by
  unfold setDefault
  by_cases hh : hasField d k1
  · simp [hh]
  · simp only [hh, Bool.false_eq_true, if_false]
    rw [getField_append, getField_cons]
    have h2 : ¬ (k1 = k2) := fun heq => h heq.symm
    simp only [h2, if_false]
    cases getField d k2 <;> simp [getField]

theorem hasField_setDefault (d : Doc) (k1 k2 : String) (v : Val) :
    hasField (setDefault d k1 v) k2 = (hasField d k2 || k2 == k1) := by
  unfold setDefault
  by_cases hh : hasField d k1
  · simp only [hh, if_true]
    by_cases hk : k2 = k1
    · subst hk
      simp [hh]
    · simp [hk]
  · simp only [hh, Bool.false_eq_true, if_false]
    rw [hasField_append, hasField_cons]
    by_cases hk : k1 = k2
    · subst hk
      simp [hasField]
    · have hk2 : ¬ (k2 = k1) := fun heq => hk heq.symm
      simp [hk, hk2, hasField]

theorem getField_setDefault_self (d : Doc) (k : String) (v : Val) :
    getField (setDefault d k v) k = match getField d k with
                                    | some w => some w
                                    | none => some v := by
  unfold setDefault
  by_cases hh : hasField d k
  · obtain ⟨w, hw⟩ := getField_isSome_of_has d k hh
    simp [hh, hw]
  · simp only [hh, Bool.false_eq_true, if_false]
    rw [getField_append]
    rw [getField_eq_none_of_not_has d k (by simpa using hh)]
    simp [getField_cons]

theorem getField_eraseField_self (d : Doc) (k : String) :
    getField (eraseField d k) k = none := by
  induction d with
  | nil => rfl
  | cons p rest ih =>
    by_cases hp : p.1 = k
    · simp [eraseField, hp, ih]
    · simp [eraseField, hp, getField_cons, ih]

theorem getField_eraseField_ne (d : Doc) (k1 k2 : String) (h : k2 ≠ k1) :
    getField (eraseField d k1) k2 = getField d k2 := by
  induction d with
  | nil => rfl
  | cons p rest ih =>
    by_cases hp : p.1 = k1
    · have hp2 : ¬ (p.1 = k2) := by
        rw [hp]
        exact fun heq => h heq.symm
      have h12 : ¬ (k1 = k2) := fun heq => h heq.symm
      simp [eraseField, hp, getField_cons, hp2, h12, ih]
    · simp only [eraseField, hp, if_false, getField_cons]
      by_cases hp2 : p.1 = k2 <;> simp [hp2, ih]

theorem hasField_eraseField_self (d : Doc) (k : String) :
    hasField (eraseField d k) k = false := by
  induction d with
  | nil => rfl
  | cons p rest ih =>
    by_cases hp : p.1 = k
    · simp [eraseField, hp, ih]
    · simp [eraseField, hp, hasField_cons, ih]

theorem hasField_eraseField_ne (d : Doc) (k1 k2 : String) (h : k2 ≠ k1) :
    hasField (eraseField d k1) k2 = hasField d k2 := by
  induction d with
  | nil => rfl
  | cons p rest ih =>
    by_cases hp : p.1 = k1
    · have hp2 : ¬ (p.1 = k2) := by
        rw [hp]
        exact fun heq => h heq.symm
      have h12 : ¬ (k1 = k2) := fun heq => h heq.symm
      simp [eraseField, hp, hasField_cons, hp2, h12, ih]
    · simp only [eraseField, hp, if_false, hasField_cons]
      by_cases hp2 : p.1 = k2 <;> simp [hp2, ih]

theorem applySet_nil (d : Doc) : applySet d [] = d := rfl

theorem applySet_cons (d : Doc) (p : String × Val) (patch : Doc) :
    applySet d (p :: patch) = applySet (setField d p.1 p.2) patch := rfl

theorem hasField_false_iff_not_mem_keys (d : Doc) (k : String) :
    hasField d k = false ↔ k ∉ docKeys d := by
  rw [hasField_eq_keys_any]
  simp [List.any_eq_true]
  constructor
  · intro h hk
    exact absurd rfl (h k hk)
  · intro h x hx hxk
    exact h (hxk ▸ hx)

theorem getField_applySet_not_has (d patch : Doc) (k : String) (h : hasField patch k = false) :
    getField (applySet d patch) k = getField d k := by
  induction patch generalizing d with
  | nil => rfl
  | cons p rest ih =>
    rw [hasField_cons] at h
    by_cases hp : p.1 = k
    · simp [hp] at h
    · simp only [hp, if_false] at h
      rw [applySet_cons, ih _ h, getField_setField_ne _ _ _ _ (fun heq => hp heq.symm)]

theorem hasField_applySet (d patch : Doc) (k : String) :
    hasField (applySet d patch) k = (hasField d k || hasField patch k) := by
  induction patch generalizing d with
  | nil => simp [applySet_nil, hasField]
  | cons p rest ih =>
    rw [applySet_cons, ih, hasField_setField, hasField_cons]
    by_cases hp : p.1 = k
    · simp [hp]
    · have : (k == p.1) = false := by
        simp
        exact fun heq => hp heq.symm
      simp [hp, this]

theorem getField_applySet_has (d patch : Doc) (k : String) (v : Val)
    (hnd : (docKeys patch).Nodup) (h : getField patch k = some v) :
    getField (applySet d patch) k = some v := by
  induction patch generalizing d with
  | nil => simp [getField] at h
  | cons p rest ih =>
    rw [getField_cons] at h
    rw [applySet_cons]
    by_cases hp : p.1 = k
    · subst hp
      simp only [if_pos rfl] at h
      have hnd1 := List.nodup_cons.mp (show (p.1 :: docKeys rest).Nodup from hnd)
      have hk : hasField rest p.1 = false := (hasField_false_iff_not_mem_keys rest p.1).mpr hnd1.1
      rw [getField_applySet_not_has _ _ _ hk, getField_setField_self]
      exact h
    · simp only [hp, if_false] at h
      have hnd1 := List.nodup_cons.mp (show (p.1 :: docKeys rest).Nodup from hnd)
      exact ih _ hnd1.2 h

theorem docKeys_append (d1 d2 : Doc) : docKeys (d1 ++ d2) = docKeys d1 ++ docKeys d2 := by
  simp [docKeys]

theorem docKeys_setField_nodup (d : Doc) (k : String) (v : Val) (h : (docKeys d).Nodup) :
    (docKeys (setField d k v)).Nodup := by
  unfold setField
  by_cases hh : hasField d k
  · simp only [hh, if_true]
    simpa [docKeys_map_repl] using h
  · simp only [hh, Bool.false_eq_true, if_false]
    rw [docKeys_append]
    refine List.Nodup.append h (List.nodup_singleton k) ?_
    intro a ha hb
    have : a = k := by simpa [docKeys] using hb
    subst this
    exact (hasField_false_iff_not_mem_keys d a).mp (by simpa using hh) ha

theorem docKeys_setDefault_nodup (d : Doc) (k : String) (v : Val) (h : (docKeys d).Nodup) :
    (docKeys (setDefault d k v)).Nodup := by
  unfold setDefault
  by_cases hh : hasField d k
  · simp only [hh, if_true]
    exact h
  · simp only [hh, Bool.false_eq_true, if_false]
    rw [docKeys_append]
    refine List.Nodup.append h (List.nodup_singleton k) ?_
    intro a ha hb
    have : a = k := by simpa [docKeys] using hb
    subst this
    exact (hasField_false_iff_not_mem_keys d a).mp (by simpa using hh) ha

theorem docKeys_eraseField_sublist (d : Doc) (k : String) :
    (docKeys (eraseField d k)).Sublist (docKeys d) := by
  induction d with
  | nil => simp [eraseField, docKeys]
  | cons p rest ih =>
    by_cases hp : p.1 = k
    · simp only [eraseField, hp, if_true]
      exact ih.trans (by simp [docKeys])
    · simp only [eraseField, hp, if_false]
      simpa [docKeys] using ih.cons₂ p.1

theorem docKeys_eraseField_nodup (d : Doc) (k : String) (h : (docKeys d).Nodup) :
    (docKeys (eraseField d k)).Nodup :=
  h.sublist (docKeys_eraseField_sublist d k)

theorem findOne_eq_none_iff (c : List Doc) (q : Query) :
    findOne c q = none ↔ ∀ d ∈ c, queryMatches d q = false := by
  simp [findOne, List.find?_eq_none]

theorem find_eq_head_of_filter {α : Type} (p : α → Bool) (l : List α) (d : α) (r : List α)
    (h : l.filter p = d :: r) : l.find? p = some d := by
  induction l with
  | nil => simp at h
  | cons x xs ih =>
    by_cases hx : p x
    · rw [List.filter_cons_of_pos hx] at h
      injection h with h1 h2
      rw [List.find?_cons_of_pos _ hx, h1]
    · rw [List.filter_cons_of_neg (by simpa using hx)] at h
      rw [List.find?_cons_of_neg _ (by simpa using hx)]
      exact ih h

theorem deleteOne_of_at_most_one (c : List Doc) (q : Query)
    (h : (c.filter (fun d => queryMatches d q)).length ≤ 1) :
    (deleteOne c q).1 = c.filter (fun d => !queryMatches d q) ∧
    (deleteOne c q).2 = (c.filter (fun d => queryMatches d q)).length := by
  induction c with
  | nil => exact ⟨rfl, rfl⟩
  | cons d rest ih =>
    by_cases hd : queryMatches d q
    · simp only [List.filter_cons, hd, if_true, List.length_cons] at h
      have h0 : (rest.filter (fun d => queryMatches d q)).length = 0 := by omega
      have hnil : rest.filter (fun d => queryMatches d q) = [] := List.length_eq_zero.mp h0
      have hall : ∀ x ∈ rest, queryMatches x q = false := by
        intro x hx
        by_cases hxx : queryMatches x q
        · exfalso
          have hmem : x ∈ rest.filter (fun d => queryMatches d q) := List.mem_filter.mpr ⟨hx, hxx⟩
          rw [hnil] at hmem
          simp at hmem
        · simpa using hxx
      have hrest : rest.filter (fun d => !queryMatches d q) = rest := by
        apply List.filter_eq_self.mpr
        intro a ha
        simp [hall a ha]
      refine ⟨?_, ?_⟩
      · simp only [deleteOne, hd, if_true, List.filter_cons, Bool.not_true, Bool.false_eq_true,
          if_false]
        rw [hrest]
      · simp only [deleteOne, hd, if_true, List.filter_cons, List.length_cons]
        rw [hnil]
        rfl
    · simp only [List.filter_cons, hd, Bool.false_eq_true, if_false] at h
      obtain ⟨ih1, ih2⟩ := ih h
      refine ⟨?_, ?_⟩
      · simp only [deleteOne, hd, Bool.false_eq_true, if_false, List.filter_cons, Bool.not_false,
          if_true]
        rw [ih1]
      · simp only [deleteOne, hd, Bool.false_eq_true, if_false, List.filter_cons]
        rw [ih2]

theorem updateOne_no_match (c : List Doc) (q : Query) (setF soi : Doc)
    (h : ∀ d ∈ c, queryMatches d q = false) :
    updateOne c q setF soi true = (c ++ [applySet (applySet (upsertSeed q) soi) setF], 0) := by
  induction c with
  | nil => rfl
  | cons d rest ih =>
    have hd := h d (by simp)
    simp only [updateOne, hd, Bool.false_eq_true, if_false]
    rw [ih (fun x hx => h x (by simp [hx]))]
    simp

theorem updateOne_mem_set (c : List Doc) (q : Query) (setF soi : Doc) (k : String) (v : Val)
    (hnd : (docKeys setF).Nodup) (h : getField setF k = some v) :
    ∃ d, d ∈ (updateOne c q setF soi true).1 ∧ getField d k = some v := by
  induction c with
  | nil =>
    refine ⟨applySet (applySet (upsertSeed q) soi) setF, ?_, getField_applySet_has _ _ _ _ hnd h⟩
    simp [updateOne]
  | cons d rest ih =>
    by_cases hd : queryMatches d q
    · refine ⟨applySet d setF, ?_, getField_applySet_has _ _ _ _ hnd h⟩
      simp [updateOne, hd]
    · obtain ⟨x, hx, hgx⟩ := ih
      refine ⟨x, ?_, hgx⟩
      simp only [updateOne, hd, Bool.false_eq_true, if_false]
      exact List.mem_cons_of_mem d hx

theorem mem_updateOne_soi_only (c : List Doc) (q : Query) (soi : Doc) (x : Doc)
    (hx : x ∈ (updateOne c q [] soi true).1) :
    x ∈ c ∨ x = applySet (upsertSeed q) soi := by
  induction c with
  | nil =>
    simp only [updateOne, if_true, List.mem_singleton] at hx
    right
    rw [hx, applySet_nil]
  | cons d rest ih =>
    by_cases hd : queryMatches d q
    · simp only [updateOne, hd, if_true, applySet_nil] at hx
      left
      exact hx
    · simp only [updateOne, hd, Bool.false_eq_true, if_false] at hx
      rcases List.mem_cons.mp hx with h1 | h2
      · left
        simp [h1]
      · rcases ih h2 with ha | hb
        · left
          exact List.mem_cons_of_mem d ha
        · right
          exact hb

theorem mem_pyWordsAux_ne_nil (l : List Char) (acc : List Char) (w : List Char)
    (hw : w ∈ pyWordsAux l acc) : w ≠ [] := by
  induction l generalizing acc with
  | nil =>
    by_cases hacc : acc.isEmpty
    · simp [pyWordsAux, hacc] at hw
    · simp only [pyWordsAux, hacc, Bool.false_eq_true, if_false, List.mem_singleton] at hw
      subst hw
      simp
      exact fun hnil => by simp [hnil] at hacc
  | cons c rest ih =>
    by_cases hcw : c.isWhitespace
    · by_cases hacc : acc.isEmpty
      · simp only [pyWordsAux, hcw, if_true, hacc] at hw
        exact ih _ hw
      · simp only [pyWordsAux, hcw, if_true, hacc, Bool.false_eq_true, if_false,
          List.mem_cons] at hw
        rcases hw with h1 | h2
        · subst h1
          simp
          exact fun hnil => by simp [hnil] at hacc
        · exact ih _ h2
    · simp only [pyWordsAux, hcw, Bool.false_eq_true, if_false] at hw
      exact ih _ hw

theorem pyWordsAux_ne_nil (l : List Char) (acc : List Char)
    (h : (∃ c ∈ l, c.isWhitespace = false) ∨ acc ≠ []) :
    pyWordsAux l acc ≠ [] := by
  induction l generalizing acc with
  | nil =>
    rcases h with ⟨c, hc, _⟩ | hacc
    · simp at hc
    · have : acc.isEmpty = false := by
        cases acc
        · simp at hacc
        · rfl
      simp [pyWordsAux, this]
  | cons c rest ih =>
    by_cases hcw : c.isWhitespace
    · rcases h with ⟨x, hx, hxw⟩ | hacc
      · rcases List.mem_cons.mp hx with h1 | h2
        · subst h1
          simp [hcw] at hxw
        · by_cases hacc2 : acc.isEmpty
          · simp only [pyWordsAux, hcw, if_true, hacc2]
            exact ih [] (Or.inl ⟨x, h2, hxw⟩)
          · simp [pyWordsAux, hcw, hacc2]
      · by_cases hacc2 : acc.isEmpty
        · exfalso
          cases acc
          · simp at hacc
          · simp at hacc2
        · simp [pyWordsAux, hcw, hacc2]
    · simp only [pyWordsAux, hcw, Bool.false_eq_true, if_false]
      exact ih (c :: acc) (Or.inr (by simp))

theorem joinWords_length_ge (w : List Char) (ws : List (List Char)) :
    w.length ≤ (joinWords (w :: ws)).length := by
  cases ws with
  | nil => simp [joinWords]
  | cons w2 rest =>
    simp only [joinWords, List.length_append, List.length_cons]
    omega

theorem queryMatches_single_eq_str (d : Doc) (k s : String) :
    queryMatches d [(k, QCond.eqV (Val.str s))] = true ↔ getField d k = some (Val.str s) := by
  simp only [queryMatches, List.all_cons, List.all_nil, Bool.and_true]
  cases hg : getField d k with
  | none => simp [condMatches, hg, Val.beq]
  | some w =>
    simp only [condMatches, hg, Option.some.injEq]
    exact Val.beq_str_iff w s

/-- C5: the skip/limit computation of the adapters returns skip 0 and
limit 20 when the pagination object is None, and for every pagination object
with integer attributes `page ≥ 1` and `size ≥ 1` and no `limit` attribute it
returns `skip = (page - 1) * size` and `limit = size`. -/
theorem C5_pagination_skip_limit :
    paginationSkipLimit none = (0, 20) ∧
    ∀ (p : Pagination) (pg sz : Int), p.page = some pg → p.size = some sz → p.limit = none →
      1 ≤ pg → 1 ≤ sz → paginationSkipLimit (some p) = ((pg - 1) * sz, sz) := by
  refine ⟨rfl, ?_⟩
  intro p pg sz hp hs hl h1 h2
  have hpg : pg ≠ 0 := by omega
  have hsz : sz ≠ 0 := by omega
  simp [paginationSkipLimit, hp, hs, hl, pyOrInt, hpg, hsz]

/-- Witness for C5 at page 3, size 10. -/
theorem C5_pagination_skip_limit_witness :
    paginationSkipLimit (some ⟨none, none, some 3, some 10, none⟩) = ((3 - 1) * 10, 10) :=
  C5_pagination_skip_limit.2 ⟨none, none, some 3, some 10, none⟩ 3 10 rfl rfl rfl
    (by decide) (by decide)

/-- C4 counterexample: on a store holding exactly one session whose own
string `id` field is "sess-1" (its `_id` being an ObjectId), mongo_02's
`delete_user_session "sess-1"` queries `_id` with the raw string, deletes
nothing, and still returns True — the claim as stated is false on this
variant. -/
theorem C4_counterexample :
    (Mongo02.deleteUserSession
      [[("_id", Val.oid "64b2f0cafe1234567890abcd"), ("id", Val.str "sess-1")]] "sess-1").2
      = true ∧
    (Mongo02.deleteUserSession
      [[("_id", Val.oid "64b2f0cafe1234567890abcd"), ("id", Val.str "sess-1")]] "sess-1").1
      = [[("_id", Val.oid "64b2f0cafe1234567890abcd"), ("id", Val.str "sess-1")]] :=
  ⟨rfl, rfl⟩

/-- C4 (amended): mongo_03's `delete_user_session` behaves as the claim
states — it deletes by the session document's own string `id` field: when at
most one stored session carries that id, exactly the matching document is
removed and True is returned iff one existed. mongo_01 instead deletes by
`_id` (converting a valid ObjectId string), and mongo_02 deletes by `_id`
compared as a raw string and returns True unconditionally. -/
theorem C4_deleteUserSession03 (sessions : List Doc) (sid : String)
    (h : (sessions.filter (fun d => queryMatches d [("id", QCond.eqV (Val.str sid))])).length ≤ 1) :
    (Mongo03.deleteUserSession sessions sid).1 =
      sessions.filter (fun d => !(queryMatches d [("id", QCond.eqV (Val.str sid))])) ∧
    ((Mongo03.deleteUserSession sessions sid).2 = true ↔
      ∃ d ∈ sessions, getField d "id" = some (Val.str sid)) := by
  obtain ⟨h1, h2⟩ := deleteOne_of_at_most_one sessions [("id", QCond.eqV (Val.str sid))] h
  refine ⟨?_, ?_⟩
  · simpa only [Mongo03.deleteUserSession] using h1
  · simp only [Mongo03.deleteUserSession]
    rw [h2]
    constructor
    · intro hlen
      have hl1 : (sessions.filter (fun d => queryMatches d [("id", QCond.eqV (Val.str sid))])).length = 1 := by
        simpa using hlen
      obtain ⟨a, ha⟩ := List.length_eq_one.mp hl1
      have hmem : a ∈ sessions.filter (fun d => queryMatches d [("id", QCond.eqV (Val.str sid))]) := by
        simp [ha]
      have hm := List.mem_filter.mp hmem
      exact ⟨a, hm.1, (queryMatches_single_eq_str a "id" sid).mp hm.2⟩
    · rintro ⟨d, hd, hgd⟩
      have hmem : d ∈ sessions.filter (fun d => queryMatches d [("id", QCond.eqV (Val.str sid))]) :=
        List.mem_filter.mpr ⟨hd, (queryMatches_single_eq_str d "id" sid).mpr hgd⟩
      have hpos : 1 ≤ (sessions.filter (fun d => queryMatches d [("id", QCond.eqV (Val.str sid))])).length :=
        List.length_pos.mpr (List.ne_nil_of_mem hmem)
      have : (sessions.filter (fun d => queryMatches d [("id", QCond.eqV (Val.str sid))])).length = 1 := by
        omega
      simp [this]

/-- Witness for C4's amended theorem on a one-session store. -/
theorem C4_deleteUserSession03_witness :
    (Mongo03.deleteUserSession [[("id", Val.str "sess-9")]] "sess-9").1 =
      [[("id", Val.str "sess-9")]].filter
        (fun d => !(queryMatches d [("id", QCond.eqV (Val.str "sess-9"))])) ∧
    ((Mongo03.deleteUserSession [[("id", Val.str "sess-9")]] "sess-9").2 = true ↔
      ∃ d ∈ [[("id", Val.str "sess-9")]], getField d "id" = some (Val.str "sess-9")) :=
  C4_deleteUserSession03 [[("id", Val.str "sess-9")]] "sess-9" (by decide)

/-- C7 counterexample: a unique thread document with id "t1" carries the
`userIdentifier` "" (the empty string). The claim demands the lower-cased
field value, `some ""`; mongo_02's `get_thread_author` treats the falsy
author as missing and returns None. -/
theorem C7_counterexample :
    getField [("id", Val.str "t1"), ("userIdentifier", Val.str "")] "userIdentifier"
      = some (Val.str "") ∧
    Mongo02.getThreadAuthor [[("id", Val.str "t1"), ("userIdentifier", Val.str "")]] "t1"
      = none ∧
    ¬ (Mongo02.getThreadAuthor [[("id", Val.str "t1"), ("userIdentifier", Val.str "")]] "t1"
        = some (Val.str (pyLower ""))) :=
  ⟨rfl, rfl, fun h => Option.noConfusion h⟩

/-- C7 (amended): mongo_01's `get_thread_author` behaves as the claim states:
None when no thread document with the id exists; for the first (under the
one-owner reading, the unique) matching document, None when the
`userIdentifier` field is absent and the lower-cased value when the field is
a string. mongo_02's variant additionally collapses every falsy author value
(such as the empty string) to None. -/
theorem C7_getThreadAuthor01 (threads : List Doc) (t : String) :
    (threads.filter (fun d => queryMatches d [("id", QCond.eqV (Val.str t))]) = [] →
      Mongo01.getThreadAuthor threads t = none) ∧
    ∀ d r, threads.filter (fun d => queryMatches d [("id", QCond.eqV (Val.str t))]) = d :: r →
      (getField d "userIdentifier" = none → Mongo01.getThreadAuthor threads t = none) ∧
      ∀ a, getField d "userIdentifier" = some (Val.str a) →
        Mongo01.getThreadAuthor threads t = some (Val.str (pyLower a)) := by
  refine ⟨?_, ?_⟩
  · intro hnil
    have hnone : findOne threads [("id", QCond.eqV (Val.str t))] = none := by
      rw [findOne_eq_none_iff]
      intro d hd
      by_cases hq : queryMatches d [("id", QCond.eqV (Val.str t))]
      · exfalso
        have : d ∈ threads.filter (fun d => queryMatches d [("id", QCond.eqV (Val.str t))]) :=
          List.mem_filter.mpr ⟨hd, hq⟩
        rw [hnil] at this
        simp at this
      · simpa using hq
    simp [Mongo01.getThreadAuthor, hnone]
  · intro d r hdr
    have hfind : findOne threads [("id", QCond.eqV (Val.str t))] = some d :=
      find_eq_head_of_filter _ threads d r hdr
    refine ⟨?_, ?_⟩
    · intro hui
      simp [Mongo01.getThreadAuthor, hfind, hui]
    · intro a hui
      simp [Mongo01.getThreadAuthor, hfind, hui, normalizeIdentifierVal]

/-- Witness for C7's amended theorem: a store with one thread owned by
"Alice". -/
theorem C7_getThreadAuthor01_witness :
    Mongo01.getThreadAuthor [[("id", Val.str "t7"), ("userIdentifier", Val.str "Alice")]] "t7" =
      some (Val.str (pyLower "Alice")) :=
  ((C7_getThreadAuthor01 [[("id", Val.str "t7"), ("userIdentifier", Val.str "Alice")]] "t7").2
    [("id", Val.str "t7"), ("userIdentifier", Val.str "Alice")] [] rfl).2 "Alice" rfl

/-- C1: evaluation at the failing input. mongo_01's `delete_thread` deletes
the steps of thread t1 before collecting their ids "for feedback cleanup"
(its own comment), so the collected list is always empty and feedback f1 —
attached to step s1 of t1 through `forId` only — survives the cascade.
mongo_03's variant collects ids first but never deletes steps stored under
the legacy `thread_id` spelling, which the claim also requires. -/
theorem C1_delete_thread_failing_input :
    (Mongo01.deleteThread
      ⟨[], [[("id", Val.str "t1")]],
       [[("id", Val.str "s1"), ("threadId", Val.str "t1")]],
       [], [[("id", Val.str "f1"), ("forId", Val.str "s1")]], []⟩ "t1").2.feedback =
      [[("id", Val.str "f1"), ("forId", Val.str "s1")]] ∧
    (Mongo03.deleteThread
      ⟨[], [[("id", Val.str "t1")]],
       [[("id", Val.str "s2"), ("thread_id", Val.str "t1")]],
       [], [], []⟩ "t1").2.steps =
      [[("id", Val.str "s2"), ("thread_id", Val.str "t1")]] :=
  ⟨rfl, rfl⟩

/-- C2 counterexample: mongo_02's `create_step` inserts the raw dict before
any thread-id normalization and returns early for a non-user-message step:
the persisted step document keeps the `thread_id` key and never gains a
`threadId` key. -/
theorem C2_counterexample :
    (Mongo02.createStep ⟨[], [], [], [], [], []⟩
        [("id", Val.str "s1"), ("type", Val.str "tool"), ("thread_id", Val.str "t1")]
        "fresh" 0 none).2.steps =
      [[("id", Val.str "s1"), ("type", Val.str "tool"), ("thread_id", Val.str "t1"),
        ("created_at", Val.dt 0)]] ∧
    hasField [("id", Val.str "s1"), ("type", Val.str "tool"), ("thread_id", Val.str "t1"),
        ("created_at", Val.dt 0)] "threadId" = false ∧
    hasField [("id", Val.str "s1"), ("type", Val.str "tool"), ("thread_id", Val.str "t1"),
        ("created_at", Val.dt 0)] "thread_id" = true :=
  ⟨rfl, rfl, rfl⟩

theorem getField_normStepUserIdent_ne (d : Doc) (k : String) (h : k ≠ "userIdentifier") :
    getField (normStepUserIdent d) k = getField d k := by
  unfold normStepUserIdent
  cases getField d "userIdentifier" with
  | none => rfl
  | some v =>
    by_cases hv : v.truthy
    · simp only [hv, if_true]
      exact getField_setField_ne _ _ _ _ h
    · simp [hv]

theorem hasField_normStepUserIdent (d : Doc) (k : String) :
    hasField (normStepUserIdent d) k = hasField d k := by
  unfold normStepUserIdent
  cases hui : getField d "userIdentifier" with
  | none => rfl
  | some v =>
    by_cases hv : v.truthy
    · simp only [hv, if_true]
      rw [hasField_setField]
      by_cases hk : k = "userIdentifier"
      · have hh : hasField d "userIdentifier" = true := by
          by_cases hcc : hasField d "userIdentifier"
          · simpa using hcc
          · rw [getField_eq_none_of_not_has d "userIdentifier" (by simpa using hcc)] at hui
            exact absurd hui (by simp)
        simp [hk, hh]
      · simp [hk]
    · simp [hv]

theorem docKeys_normStepUserIdent_nodup (d : Doc) (h : (docKeys d).Nodup) :
    (docKeys (normStepUserIdent d)).Nodup := by
  unfold normStepUserIdent
  cases getField d "userIdentifier" with
  | none => exact h
  | some v =>
    by_cases hv : v.truthy
    · simp only [hv, if_true]
      exact docKeys_setField_nodup _ _ _ h
    · simpa [hv] using h

theorem getField_normStepUserIdent_uid (d : Doc) (u : String)
    (h : getField d "userIdentifier" = some (Val.str u)) :
    getField (normStepUserIdent d) "userIdentifier" = some (Val.str (pyLower u)) := by
  unfold normStepUserIdent
  rw [h]
  by_cases hu : (Val.str u).truthy
  · simp only [hu, if_true]
    rw [getField_setField_self]
    rfl
  · have hu0 : u = "" := by
      simpa [Val.truthy, String.isEmpty_iff] using hu
    subst hu0
    simp only [hu, Bool.false_eq_true, if_false]
    exact h

theorem getField_ensureStepId_id (d : Doc) (f : String) :
    getField (ensureStepId d f) "id" = some (match getField d "id" with
                                             | some v => v
                                             | none => Val.str f) := by
  unfold ensureStepId
  by_cases h : hasField d "id"
  · obtain ⟨v, hv⟩ := getField_isSome_of_has d "id" h
    simp [h, hv]
  · have hg : getField d "id" = none := getField_eq_none_of_not_has d "id" (by simpa using h)
    simp [h, hg, getField_setField_self]

theorem getField_ensureStepId_ne (d : Doc) (f : String) (k : String) (h : k ≠ "id") :
    getField (ensureStepId d f) k = getField d k := by
  unfold ensureStepId
  by_cases hh : hasField d "id"
  · simp [hh]
  · simp only [hh, Bool.false_eq_true, if_false]
    exact getField_setField_ne _ _ _ _ h

theorem docKeys_ensureStepId_nodup (d : Doc) (f : String) (h : (docKeys d).Nodup) :
    (docKeys (ensureStepId d f)).Nodup := by
  unfold ensureStepId
  by_cases hh : hasField d "id"
  · simpa [hh] using h
  · simp only [hh, Bool.false_eq_true, if_false]
    exact docKeys_setField_nodup _ _ _ h

theorem normalizeThreadIdInStep_fst (d : Doc) :
    (Mongo01.normalizeThreadIdInStep d).1 = resolvedTid d := by
  unfold Mongo01.normalizeThreadIdInStep
  by_cases h : truthyO (pyOr (getField d "threadId") (getField d "thread_id"))
  · simp only [h, if_true]
    cases hv : pyOr (getField d "threadId") (getField d "thread_id") with
    | none => simp [resolvedTid, hv]
    | some v => simp [resolvedTid, hv]
  · simp only [h, Bool.false_eq_true, if_false]
    rfl

theorem normalizeThreadIdInStep_truthy (d : Doc) (v : Val)
    (h : resolvedTid d = some v) (hv : v.truthy = true) :
    getField (Mongo01.normalizeThreadIdInStep d).2 "threadId" = some v ∧
    hasField (Mongo01.normalizeThreadIdInStep d).2 "thread_id" = false ∧
    (∀ k, k ≠ "threadId" → k ≠ "thread_id" →
      getField (Mongo01.normalizeThreadIdInStep d).2 k = getField d k) ∧
    ((docKeys d).Nodup → (docKeys (Mongo01.normalizeThreadIdInStep d).2).Nodup) := by
  unfold Mongo01.normalizeThreadIdInStep
  rw [show pyOr (getField d "threadId") (getField d "thread_id") = some v from h]
  simp only [truthyO, hv, if_true]
  by_cases h2 : hasField (setField d "threadId" v) "thread_id"
  · simp only [h2, if_true]
    refine ⟨?_, ?_, ?_, ?_⟩
    · rw [getField_eraseField_ne _ _ _ (by decide), getField_setField_self]
    · exact hasField_eraseField_self _ _
    · intro k hk1 hk2
      rw [getField_eraseField_ne _ _ _ hk2, getField_setField_ne _ _ _ _ hk1]
    · intro hnd
      exact docKeys_eraseField_nodup _ _ (docKeys_setField_nodup _ _ _ hnd)
  · simp only [h2, Bool.false_eq_true, if_false]
    refine ⟨getField_setField_self _ _ _, by simpa using h2, ?_, ?_⟩
    · intro k hk1 hk2
      exact getField_setField_ne _ _ _ _ hk1
    · intro hnd
      exact docKeys_setField_nodup _ _ _ hnd

theorem normalizeThreadIdInStep_falsy (d : Doc) (h : truthyO (resolvedTid d) = false) :
    Mongo01.normalizeThreadIdInStep d = (resolvedTid d, d) := by
  unfold Mongo01.normalizeThreadIdInStep
  rw [show pyOr (getField d "threadId") (getField d "thread_id") = resolvedTid d from rfl]
  simp [h]

theorem getField_normalizeThreadIdInStep_ne (d : Doc) (k : String)
    (h1 : k ≠ "threadId") (h2 : k ≠ "thread_id") :
    getField (Mongo01.normalizeThreadIdInStep d).2 k = getField d k := by
  by_cases ht : truthyO (resolvedTid d)
  · cases hres : resolvedTid d with
    | none =>
      rw [hres] at ht
      simp [truthyO] at ht
    | some v =>
      rw [hres] at ht
      obtain ⟨-, -, hpres, -⟩ := normalizeThreadIdInStep_truthy d v hres (by simpa [truthyO] using ht)
      exact hpres k h1 h2
  · rw [normalizeThreadIdInStep_falsy d (by simpa using ht)]

theorem docKeys_normalizeThreadIdInStep_nodup (d : Doc) (h : (docKeys d).Nodup) :
    (docKeys (Mongo01.normalizeThreadIdInStep d).2).Nodup := by
  by_cases ht : truthyO (resolvedTid d)
  · cases hres : resolvedTid d with
    | none =>
      rw [hres] at ht
      simp [truthyO] at ht
    | some v =>
      rw [hres] at ht
      obtain ⟨-, -, -, hnd⟩ := normalizeThreadIdInStep_truthy d v hres (by simpa [truthyO] using ht)
      exact hnd h
  · rw [normalizeThreadIdInStep_falsy d (by simpa using ht)]
    exact h

theorem truthyO_pyOr (a b : Option Val) : truthyO (pyOr a b) = (truthyO a || truthyO b) := by
  cases a with
  | none => simp [pyOr, truthyO]
  | some v =>
    by_cases hv : v.truthy
    · simp [pyOr, truthyO, hv]
    · simp [pyOr, truthyO, hv]

theorem createStep01_fst (db : DB) (step0 : Doc) (freshId : String) (now : Int)
    (ctxUser : Option Val) :
    (Mongo01.createStep db step0 freshId now ctxUser).1 =
      (getField (Mongo01.normalizeThreadIdInStep
        (setDefault (ensureStepId (normStepUserIdent step0) freshId) "created_at" (Val.dt now))).2
        "id").getD Val.null := by
  simp only [Mongo01.createStep]
  split
  · rfl
  · split
    · rfl
    · rfl

theorem createStep01_steps (db : DB) (step0 : Doc) (freshId : String) (now : Int)
    (ctxUser : Option Val) :
    (Mongo01.createStep db step0 freshId now ctxUser).2.steps =
      (updateOne db.steps
        [("id", QCond.eqV ((getField (Mongo01.normalizeThreadIdInStep
          (setDefault (ensureStepId (normStepUserIdent step0) freshId) "created_at" (Val.dt now))).2
          "id").getD Val.null))]
        (Mongo01.normalizeThreadIdInStep
          (setDefault (ensureStepId (normStepUserIdent step0) freshId) "created_at" (Val.dt now))).2
        [] true).1 := by
  simp only [Mongo01.createStep]
  split
  · rfl
  · split
    · rfl
    · rfl

theorem createStep01_threads_frame (db : DB) (step0 : Doc) (freshId : String) (now : Int)
    (ctxUser : Option Val)
    (hc : isUserMessageVal (stepTypeVal step0) = false ∨ truthyO (resolvedTid step0) = false) :
    (Mongo01.createStep db step0 freshId now ctxUser).2.threads = db.threads := by
  simp only [Mongo01.createStep]
  have htype : getField (Mongo01.normalizeThreadIdInStep
      (setDefault (ensureStepId (normStepUserIdent step0) freshId) "created_at" (Val.dt now))).2
      "type" = getField step0 "type" := by
    rw [getField_normalizeThreadIdInStep_ne _ _ (by decide) (by decide),
        getField_setDefault_ne _ _ _ _ (by decide),
        getField_ensureStepId_ne _ _ _ (by decide),
        getField_normStepUserIdent_ne _ _ (by decide)]
  have htid : (Mongo01.normalizeThreadIdInStep
      (setDefault (ensureStepId (normStepUserIdent step0) freshId) "created_at" (Val.dt now))).1 =
      resolvedTid step0 := by
    rw [normalizeThreadIdInStep_fst]
    unfold resolvedTid
    rw [getField_setDefault_ne _ _ _ _ (by decide), getField_setDefault_ne _ _ _ _ (by decide),
        getField_ensureStepId_ne _ _ _ (by decide), getField_ensureStepId_ne _ _ _ (by decide),
        getField_normStepUserIdent_ne _ _ (by decide), getField_normStepUserIdent_ne _ _ (by decide)]
  rw [htype, htid]
  rcases hc with h | h
  · have h2 : (Val.beq ((getField step0 "type").getD (Val.str "")) (Val.str "user_message") ||
        Val.beq ((getField step0 "type").getD (Val.str "")) (Val.str "message")) = false := h
    rw [if_pos (by simp [h2])]
  · rw [if_pos (by simp [h])]

theorem createStep01_norm_facts (step0 : Doc) (freshId : String) (now : Int) :
    getField (Mongo01.normalizeThreadIdInStep
      (setDefault (ensureStepId (normStepUserIdent step0) freshId) "created_at" (Val.dt now))).2
      "id" = some (expectedStepId step0 freshId) ∧
    ((docKeys step0).Nodup → (docKeys (Mongo01.normalizeThreadIdInStep
      (setDefault (ensureStepId (normStepUserIdent step0) freshId) "created_at" (Val.dt now))).2).Nodup) ∧
    (∀ u, getField step0 "userIdentifier" = some (Val.str u) →
      getField (Mongo01.normalizeThreadIdInStep
        (setDefault (ensureStepId (normStepUserIdent step0) freshId) "created_at" (Val.dt now))).2
        "userIdentifier" = some (Val.str (pyLower u))) ∧
    (truthyO (resolvedTid step0) = true →
      ∃ v, resolvedTid step0 = some v ∧
        getField (Mongo01.normalizeThreadIdInStep
          (setDefault (ensureStepId (normStepUserIdent step0) freshId) "created_at" (Val.dt now))).2
          "threadId" = some v ∧
        hasField (Mongo01.normalizeThreadIdInStep
          (setDefault (ensureStepId (normStepUserIdent step0) freshId) "created_at" (Val.dt now))).2
          "thread_id" = false) := by
  have hres : resolvedTid (setDefault (ensureStepId (normStepUserIdent step0) freshId)
      "created_at" (Val.dt now)) = resolvedTid step0 := by
    unfold resolvedTid
    rw [getField_setDefault_ne _ _ _ _ (by decide), getField_setDefault_ne _ _ _ _ (by decide),
        getField_ensureStepId_ne _ _ _ (by decide), getField_ensureStepId_ne _ _ _ (by decide),
        getField_normStepUserIdent_ne _ _ (by decide), getField_normStepUserIdent_ne _ _ (by decide)]
  refine ⟨?_, ?_, ?_, ?_⟩
  · rw [getField_normalizeThreadIdInStep_ne _ _ (by decide) (by decide),
        getField_setDefault_ne _ _ _ _ (by decide),
        getField_ensureStepId_id, getField_normStepUserIdent_ne _ _ (by decide)]
    rfl
  · intro hnd
    exact docKeys_normalizeThreadIdInStep_nodup _
      (docKeys_setDefault_nodup _ _ _ (docKeys_ensureStepId_nodup _ _
        (docKeys_normStepUserIdent_nodup _ hnd)))
  · intro u hu
    rw [getField_normalizeThreadIdInStep_ne _ _ (by decide) (by decide),
        getField_setDefault_ne _ _ _ _ (by decide),
        getField_ensureStepId_ne _ _ _ (by decide)]
    exact getField_normStepUserIdent_uid _ _ hu
  · intro ht
    rw [← hres] at ht
    cases hv : resolvedTid (setDefault (ensureStepId (normStepUserIdent step0) freshId)
        "created_at" (Val.dt now)) with
    | none =>
      rw [hv] at ht
      simp [truthyO] at ht
    | some v =>
      rw [hv] at ht
      have hvt : v.truthy = true := by simpa [truthyO] using ht
      obtain ⟨h1, h2, -, -⟩ := normalizeThreadIdInStep_truthy _ v hv hvt
      exact ⟨v, by rw [← hres, hv], h1, h2⟩

theorem createStep02_frame (db : DB) (step0 : Doc) (freshId : String) (now : Int)
    (ctxUser : Option Val)
    (hc : isUserMessageVal (stepTypeVal step0) = false ∨ truthyO (resolvedTid step0) = false) :
    (Mongo02.createStep db step0 freshId now ctxUser).2.threads = db.threads ∧
    (Mongo02.createStep db step0 freshId now ctxUser).1 = expectedStepId step0 freshId ∧
    ∃ d, d ∈ (Mongo02.createStep db step0 freshId now ctxUser).2.steps ∧
      getField d "id" = some (expectedStepId step0 freshId) := by
  simp only [Mongo02.createStep]
  set s2 := ensureStepId (normStepUserIdent step0) freshId with hs2
  set s3 := (if truthyO (getField s2 "created_at") then s2
             else setField s2 "created_at" (Val.dt now)) with hs3
  have h3ne : ∀ k, k ≠ "created_at" → getField s3 k = getField s2 k := by
    intro k hk
    rw [hs3]
    by_cases hca : truthyO (getField s2 "created_at")
    · simp [hca]
    · simp only [hca, Bool.false_eq_true, if_false]
      exact getField_setField_ne _ _ _ _ hk
  have hid : getField s3 "id" = some (expectedStepId step0 freshId) := by
    rw [h3ne _ (by decide), hs2, getField_ensureStepId_id,
        getField_normStepUserIdent_ne _ _ (by decide)]
    rfl
  have htype : getField s3 "type" = getField step0 "type" := by
    rw [h3ne _ (by decide), hs2, getField_ensureStepId_ne _ _ _ (by decide),
        getField_normStepUserIdent_ne _ _ (by decide)]
  have hth1 : getField s3 "thread_id" = getField step0 "thread_id" := by
    rw [h3ne _ (by decide), hs2, getField_ensureStepId_ne _ _ _ (by decide),
        getField_normStepUserIdent_ne _ _ (by decide)]
  have hth2 : getField s3 "threadId" = getField step0 "threadId" := by
    rw [h3ne _ (by decide), hs2, getField_ensureStepId_ne _ _ _ (by decide),
        getField_normStepUserIdent_ne _ _ (by decide)]
  rw [htype, hth1, hth2]
  rcases hc with h | h
  · have h2 : (Val.beq ((getField step0 "type").getD (Val.str "")) (Val.str "user_message") ||
        Val.beq ((getField step0 "type").getD (Val.str "")) (Val.str "message")) = false := h
    rw [if_pos (by simp [h2])]
    refine ⟨rfl, ?_, ?_⟩
    · rw [hid]
      rfl
    · exact ⟨s3, by simp [insertOne], hid⟩
  · have h2 : truthyO (pyOr (getField step0 "thread_id") (getField step0 "threadId")) = false := by
      unfold resolvedTid at h
      rw [truthyO_pyOr] at h
      rw [truthyO_pyOr]
      simp only [Bool.or_eq_false_iff] at h
      simp [h.1, h.2]
    by_cases hA : (Val.beq ((getField step0 "type").getD (Val.str "")) (Val.str "user_message") ||
        Val.beq ((getField step0 "type").getD (Val.str "")) (Val.str "message")) = true
    · rw [if_neg (by simp [hA]), if_pos (by simp [h2])]
      refine ⟨rfl, ?_, ?_⟩
      · rw [hid]
        rfl
      · exact ⟨s3, by simp [insertOne], hid⟩
    · rw [if_pos (by simpa using hA)]
      refine ⟨rfl, ?_, ?_⟩
      · rw [hid]
        rfl
      · exact ⟨s3, by simp [insertOne], hid⟩

set_option maxHeartbeats 2000000 in
theorem createStep03_facts (db : DB) (step0 : Doc) (freshId : String) (now : Int)
    (ctxUser : Option Val) :
    ∃ s6 : Doc,
      (Mongo03.createStep db step0 freshId now ctxUser).1 = (getField s6 "id").getD Val.null ∧
      (Mongo03.createStep db step0 freshId now ctxUser).2.steps =
        (updateOne db.steps [("id", QCond.eqV ((getField s6 "id").getD Val.null))] s6 [] true).1 ∧
      getField s6 "id" = some (expectedStepId step0 freshId) ∧
      hasField s6 "thread_id" = false ∧
      (truthyO (resolvedTid step0) = true →
        ∃ v, resolvedTid step0 = some v ∧ getField s6 "threadId" = some v) ∧
      ((docKeys step0).Nodup → (docKeys s6).Nodup) ∧
      (((stepTypeStripped step0 ≠ "user_message" ∧ stepTypeStripped step0 ≠ "message") ∨
          truthyO (resolvedTid step0) = false) →
        (Mongo03.createStep db step0 freshId now ctxUser).2.threads = db.threads) := by
  simp only [Mongo03.createStep]
  set s1 := setDefault step0 "id" (Val.str freshId) with hs1
  set s2 := setDefault s1 "created_at" (Val.dt now) with hs2
  set s3 := setDefault s2 "updated_at" (Val.dt now) with hs3
  set s4 := (if truthyO (getField s3 "userIdentifier") then
               setField s3 "userIdentifier" (normalizeIdentifierVal ((getField s3 "userIdentifier").getD Val.null))
             else
               match ctxUser with
               | some u => if u.truthy then setField s3 "userIdentifier" (normalizeIdentifierVal u) else s3
               | none => s3) with hs4
  set tid := pyOr (getField s4 "threadId") (getField s4 "thread_id") with htiddef
  set s5 := (match tid with
             | some v => if v.truthy then setField s4 "threadId" v else s4
             | none => s4) with hs5
  set s6 := (if hasField s5 "thread_id" then eraseField s5 "thread_id" else s5) with hs6
  have h4ne : ∀ k, k ≠ "userIdentifier" → getField s4 k = getField s3 k := by
    intro k hk
    rw [hs4]
    by_cases hu : truthyO (getField s3 "userIdentifier")
    · simp only [hu, if_true]
      exact getField_setField_ne _ _ _ _ hk
    · simp only [hu, Bool.false_eq_true, if_false]
      cases ctxUser with
      | none => rfl
      | some u =>
        by_cases hut : u.truthy
        · simp only [hut, if_true]
          exact getField_setField_ne _ _ _ _ hk
        · simp [hut]
  have h4nodup : (docKeys step0).Nodup → (docKeys s4).Nodup := by
    intro hnd
    have h3 : (docKeys s3).Nodup :=
      docKeys_setDefault_nodup _ _ _ (docKeys_setDefault_nodup _ _ _
        (docKeys_setDefault_nodup _ _ _ hnd))
    rw [hs4]
    by_cases hu : truthyO (getField s3 "userIdentifier")
    · simp only [hu, if_true]
      exact docKeys_setField_nodup _ _ _ h3
    · simp only [hu, Bool.false_eq_true, if_false]
      cases ctxUser with
      | none => exact h3
      | some u =>
        by_cases hut : u.truthy
        · simp only [hut, if_true]
          exact docKeys_setField_nodup _ _ _ h3
        · simpa [hut] using h3
  have h3id : getField s3 "id" = some (expectedStepId step0 freshId) := by
    rw [hs3, getField_setDefault_ne _ _ _ _ (by decide), hs2,
        getField_setDefault_ne _ _ _ _ (by decide), hs1, getField_setDefault_self]
    cases hg : getField step0 "id" <;> simp [expectedStepId, hg]
  have htidr : tid = resolvedTid step0 := by
    rw [htiddef, resolvedTid, h4ne _ (by decide), h4ne _ (by decide),
        hs3, getField_setDefault_ne _ _ _ _ (by decide), getField_setDefault_ne _ _ _ _ (by decide),
        hs2, getField_setDefault_ne _ _ _ _ (by decide), getField_setDefault_ne _ _ _ _ (by decide),
        hs1, getField_setDefault_ne _ _ _ _ (by decide), getField_setDefault_ne _ _ _ _ (by decide)]
  have h5ne : ∀ k, k ≠ "threadId" → getField s5 k = getField s4 k := by
    intro k hk
    rw [hs5]
    cases tid with
    | none => rfl
    | some v =>
      by_cases hv : v.truthy
      · simp only [hv, if_true]
        exact getField_setField_ne _ _ _ _ hk
      · simp [hv]
  have h5nodup : (docKeys s4).Nodup → (docKeys s5).Nodup := by
    intro h4
    rw [hs5]
    cases tid with
    | none => exact h4
    | some v =>
      by_cases hv : v.truthy
      · simp only [hv, if_true]
        exact docKeys_setField_nodup _ _ _ h4
      · simpa [hv] using h4
  have h6ne : ∀ k, k ≠ "thread_id" → getField s6 k = getField s5 k := by
    intro k hk
    rw [hs6]
    by_cases hh : hasField s5 "thread_id"
    · simp only [hh, if_true]
      exact getField_eraseField_ne _ _ _ hk
    · simp [hh]
  have h6tid : hasField s6 "thread_id" = false := by
    rw [hs6]
    by_cases hh : hasField s5 "thread_id"
    · simp only [hh, if_true]
      exact hasField_eraseField_self _ _
    · simpa [hh] using hh
  have h6nodup : (docKeys s5).Nodup → (docKeys s6).Nodup := by
    intro h5
    rw [hs6]
    by_cases hh : hasField s5 "thread_id"
    · simp only [hh, if_true]
      exact docKeys_eraseField_nodup _ _ h5
    · simpa [hh] using h5
  have h6id : getField s6 "id" = some (expectedStepId step0 freshId) := by
    rw [h6ne _ (by decide), h5ne _ (by decide), h4ne _ (by decide), h3id]
  have h6type : getField s6 "type" = getField step0 "type" := by
    rw [h6ne _ (by decide), h5ne _ (by decide), h4ne _ (by decide),
        hs3, getField_setDefault_ne _ _ _ _ (by decide),
        hs2, getField_setDefault_ne _ _ _ _ (by decide),
        hs1, getField_setDefault_ne _ _ _ _ (by decide)]
  refine ⟨s6, ?_, ?_, h6id, h6tid, ?_, ?_, ?_⟩
  · split
    · rfl
    · split
      · rfl
      · clear_value tid
        cases tid with
        | none => rfl
        | some tidV =>
          dsimp only
          cases findOne db.threads [("id", QCond.eqV tidV)] with
          | none => rfl
          | some w => rfl
  · split
    · rfl
    · split
      · rfl
      · clear_value tid
        cases tid with
        | none => rfl
        | some tidV =>
          dsimp only
          cases findOne db.threads [("id", QCond.eqV tidV)] with
          | none => rfl
          | some w => rfl
  · intro ht
    rw [← htidr] at ht
    cases htv : tid with
    | none =>
      rw [htv] at ht
      simp [truthyO] at ht
    | some v =>
      rw [htv] at ht
      have hvt : v.truthy = true := by simpa [truthyO] using ht
      refine ⟨v, by rw [← htidr, htv], ?_⟩
      have : getField s5 "threadId" = some v := by
        rw [hs5, htv]
        simp only [hvt, if_true]
        exact getField_setField_self _ _ _
      rw [h6ne _ (by decide)]
      exact this
  · intro hnd
    exact h6nodup (h5nodup (h4nodup hnd))
  · intro hc
    have hstype : (match pyOr (getField s6 "type") (some (Val.str "")) with
        | some (Val.str s) => pyStrip s
        | _ => "") = stepTypeStripped step0 := by
      rw [h6type]
      rfl
    rcases hc with ⟨hm1, hm2⟩ | h
    · have hb1 : ((match pyOr (getField s6 "type") (some (Val.str "")) with
          | some (Val.str s) => pyStrip s
          | _ => "") == "user_message") = false := by
        rw [hstype]
        simpa using hm1
      have hb2 : ((match pyOr (getField s6 "type") (some (Val.str "")) with
          | some (Val.str s) => pyStrip s
          | _ => "") == "message") = false := by
        rw [hstype]
        simpa using hm2
      rw [if_pos (by simp [hb1, hb2])]
    · rw [← htidr] at h
      by_cases hA : ((match pyOr (getField s6 "type") (some (Val.str "")) with
          | some (Val.str s) => pyStrip s
          | _ => "") == "user_message" ||
          (match pyOr (getField s6 "type") (some (Val.str "")) with
          | some (Val.str s) => pyStrip s
          | _ => "") == "message") = true
      · rw [if_neg (by simp [hA]), if_pos (by simp [h])]
      · rw [if_pos (by simpa using hA)]

/-- C8 counterexample: mongo_03 strips the step type before its user-message
check. The step type " message " is neither "user_message" nor "message", and
the step carries a thread id, yet `create_step` on an empty database creates
a thread document — the threads collection does not stay unchanged. -/
theorem C8_counterexample :
    isUserMessageVal (stepTypeVal
      [("id", Val.str "s1"), ("type", Val.str " message "), ("threadId", Val.str "t1")]) = false ∧
    (Mongo03.createStep ⟨[], [], [], [], [], []⟩
      [("id", Val.str "s1"), ("type", Val.str " message "), ("threadId", Val.str "t1")]
      "fresh" 5 none).2.threads.length = 1 ∧
    ¬ ((Mongo03.createStep ⟨[], [], [], [], [], []⟩
      [("id", Val.str "s1"), ("type", Val.str " message "), ("threadId", Val.str "t1")]
      "fresh" 5 none).2.threads = ([] : List Doc)) := by
  refine ⟨rfl, rfl, fun h => ?_⟩
  have hlen : (Mongo03.createStep ⟨[], [], [], [], [], []⟩
      [("id", Val.str "s1"), ("type", Val.str " message "), ("threadId", Val.str "t1")]
      "fresh" 5 none).2.threads.length = 1 := rfl
  rw [h] at hlen
  simp at hlen

/-- C8 (amended): for every step dict with distinct keys whose type is not a
user-message type — compared verbatim by mongo_01 and mongo_02, and after
`.strip()` by mongo_03 — or that carries no truthy thread id under either
`threadId` or `thread_id`, each `create_step` variant stores the step,
returns its id (the dict's own `id` value when the key is present, else the
generated uuid), and leaves the threads collection completely unchanged. -/
theorem C8_createStep_frame (db : DB) (step0 : Doc) (freshId : String) (now : Int)
    (ctxUser : Option Val) (hnd : (docKeys step0).Nodup) :
    ((isUserMessageVal (stepTypeVal step0) = false ∨ truthyO (resolvedTid step0) = false) →
      ((Mongo01.createStep db step0 freshId now ctxUser).2.threads = db.threads ∧
       (Mongo01.createStep db step0 freshId now ctxUser).1 = expectedStepId step0 freshId ∧
       ∃ d, d ∈ (Mongo01.createStep db step0 freshId now ctxUser).2.steps ∧
         getField d "id" = some (expectedStepId step0 freshId)) ∧
      ((Mongo02.createStep db step0 freshId now ctxUser).2.threads = db.threads ∧
       (Mongo02.createStep db step0 freshId now ctxUser).1 = expectedStepId step0 freshId ∧
       ∃ d, d ∈ (Mongo02.createStep db step0 freshId now ctxUser).2.steps ∧
         getField d "id" = some (expectedStepId step0 freshId))) ∧
    (((stepTypeStripped step0 ≠ "user_message" ∧ stepTypeStripped step0 ≠ "message") ∨
        truthyO (resolvedTid step0) = false) →
      ((Mongo03.createStep db step0 freshId now ctxUser).2.threads = db.threads ∧
       (Mongo03.createStep db step0 freshId now ctxUser).1 = expectedStepId step0 freshId ∧
       ∃ d, d ∈ (Mongo03.createStep db step0 freshId now ctxUser).2.steps ∧
         getField d "id" = some (expectedStepId step0 freshId))) := by
  obtain ⟨s6, h1, h2, h3, h4, h5, h6, h7⟩ := createStep03_facts db step0 freshId now ctxUser
  obtain ⟨hida, hnda, -, -⟩ := createStep01_norm_facts step0 freshId now
  refine ⟨fun hc => ⟨⟨createStep01_threads_frame db step0 freshId now ctxUser hc, ?_, ?_⟩,
    createStep02_frame db step0 freshId now ctxUser hc⟩, fun hc3 => ⟨h7 hc3, ?_, ?_⟩⟩
  · rw [createStep01_fst, hida]
    rfl
  · rw [createStep01_steps]
    exact updateOne_mem_set _ _ _ _ _ _ (hnda hnd) hida
  · rw [h1, h3]
    rfl
  · rw [h2]
    exact updateOne_mem_set _ _ _ _ _ _ (h6 hnd) h3

/-- Witness for C8 on a one-step input: a "tool" step with a thread id,
against the empty database. -/
theorem C8_createStep_frame_witness :
    ((Mongo01.createStep ⟨[], [], [], [], [], []⟩
        [("type", Val.str "tool"), ("threadId", Val.str "t1")] "u1" 0 none).2.threads = [] ∧
     (Mongo01.createStep ⟨[], [], [], [], [], []⟩
        [("type", Val.str "tool"), ("threadId", Val.str "t1")] "u1" 0 none).1 =
       expectedStepId [("type", Val.str "tool"), ("threadId", Val.str "t1")] "u1" ∧
     ∃ d, d ∈ (Mongo01.createStep ⟨[], [], [], [], [], []⟩
        [("type", Val.str "tool"), ("threadId", Val.str "t1")] "u1" 0 none).2.steps ∧
       getField d "id" = some (expectedStepId [("type", Val.str "tool"), ("threadId", Val.str "t1")] "u1")) ∧
    ((Mongo02.createStep ⟨[], [], [], [], [], []⟩
        [("type", Val.str "tool"), ("threadId", Val.str "t1")] "u1" 0 none).2.threads = [] ∧
     (Mongo02.createStep ⟨[], [], [], [], [], []⟩
        [("type", Val.str "tool"), ("threadId", Val.str "t1")] "u1" 0 none).1 =
       expectedStepId [("type", Val.str "tool"), ("threadId", Val.str "t1")] "u1" ∧
     ∃ d, d ∈ (Mongo02.createStep ⟨[], [], [], [], [], []⟩
        [("type", Val.str "tool"), ("threadId", Val.str "t1")] "u1" 0 none).2.steps ∧
       getField d "id" = some (expectedStepId [("type", Val.str "tool"), ("threadId", Val.str "t1")] "u1")) ∧
    ((Mongo03.createStep ⟨[], [], [], [], [], []⟩
        [("type", Val.str "tool"), ("threadId", Val.str "t1")] "u1" 0 none).2.threads = [] ∧
     (Mongo03.createStep ⟨[], [], [], [], [], []⟩
        [("type", Val.str "tool"), ("threadId", Val.str "t1")] "u1" 0 none).1 =
       expectedStepId [("type", Val.str "tool"), ("threadId", Val.str "t1")] "u1" ∧
     ∃ d, d ∈ (Mongo03.createStep ⟨[], [], [], [], [], []⟩
        [("type", Val.str "tool"), ("threadId", Val.str "t1")] "u1" 0 none).2.steps ∧
       getField d "id" = some (expectedStepId [("type", Val.str "tool"), ("threadId", Val.str "t1")] "u1")) := by
  have h := C8_createStep_frame ⟨[], [], [], [], [], []⟩
    [("type", Val.str "tool"), ("threadId", Val.str "t1")] "u1" 0 none (by decide)
  have h12 := h.1 (Or.inl (by decide))
  have h3 := h.2 (Or.inl (by decide))
  exact ⟨h12.1, h12.2, h3⟩

/-- C2 (amended): in mongo_01 and mongo_03 `create_step`, every step dict
with distinct keys that carries a truthy thread id (under `threadId` or the
legacy `thread_id`) and whose step id is not already stored is persisted as a
new document holding the resolved thread id under `threadId` and without the
`thread_id` key, regardless of the step's type. In mongo_02 this fails:
normalization runs only for user-message steps, and even then the persisted
document keeps its `thread_id` key. -/
theorem C2_createStep_normalizes (db : DB) (step0 : Doc) (freshId : String) (now : Int)
    (ctxUser : Option Val) (hnd : (docKeys step0).Nodup)
    (htid : truthyO (resolvedTid step0) = true)
    (hfresh : ∀ d ∈ db.steps,
      queryMatches d [("id", QCond.eqV (expectedStepId step0 freshId))] = false) :
    (∃ pdoc, (Mongo01.createStep db step0 freshId now ctxUser).2.steps = db.steps ++ [pdoc] ∧
       getField pdoc "threadId" = resolvedTid step0 ∧ hasField pdoc "thread_id" = false) ∧
    (∃ pdoc, (Mongo03.createStep db step0 freshId now ctxUser).2.steps = db.steps ++ [pdoc] ∧
       getField pdoc "threadId" = resolvedTid step0 ∧ hasField pdoc "thread_id" = false) := by
  obtain ⟨hida, hnda, -, htidf⟩ := createStep01_norm_facts step0 freshId now
  obtain ⟨v, hv, hvth, hvnoth⟩ := htidf htid
  obtain ⟨s6, h1, h2, h3, h4, h5, h6, h7⟩ := createStep03_facts db step0 freshId now ctxUser
  obtain ⟨v2, hv2, hv2th⟩ := h5 htid
  constructor
  · rw [createStep01_steps, hida, Option.getD_some,
        updateOne_no_match db.steps _ _ _ hfresh]
    refine ⟨_, rfl, ?_, ?_⟩
    · rw [hv]
      exact getField_applySet_has _ _ _ _ (hnda hnd) hvth
    · rw [hasField_applySet, hvnoth, applySet_nil]
      rfl
  · rw [h2, h3, Option.getD_some, updateOne_no_match db.steps _ _ _ hfresh]
    refine ⟨_, rfl, ?_, ?_⟩
    · rw [hv2]
      exact getField_applySet_has _ _ _ _ (h6 hnd) hv2th
    · rw [hasField_applySet, h4, applySet_nil]
      rfl

/-- Witness for C2's amended theorem: a "tool" step carrying its thread id
under the legacy `thread_id` key, against the empty database. -/
theorem C2_createStep_normalizes_witness :
    (∃ pdoc, (Mongo01.createStep ⟨[], [], [], [], [], []⟩
        [("id", Val.str "s2"), ("type", Val.str "tool"), ("thread_id", Val.str "t9")]
        "u3" 0 none).2.steps = [] ++ [pdoc] ∧
       getField pdoc "threadId" =
         resolvedTid [("id", Val.str "s2"), ("type", Val.str "tool"), ("thread_id", Val.str "t9")] ∧
       hasField pdoc "thread_id" = false) ∧
    (∃ pdoc, (Mongo03.createStep ⟨[], [], [], [], [], []⟩
        [("id", Val.str "s2"), ("type", Val.str "tool"), ("thread_id", Val.str "t9")]
        "u3" 0 none).2.steps = [] ++ [pdoc] ∧
       getField pdoc "threadId" =
         resolvedTid [("id", Val.str "s2"), ("type", Val.str "tool"), ("thread_id", Val.str "t9")] ∧
       hasField pdoc "thread_id" = false) :=
  C2_createStep_normalizes ⟨[], [], [], [], [], []⟩
    [("id", Val.str "s2"), ("type", Val.str "tool"), ("thread_id", Val.str "t9")]
    "u3" 0 none (by decide) (by decide) (by intro d hd; exact absurd hd (List.not_mem_nil d))

/-- C3: case-folding of user identifiers. `get_user` (mongo_01) returns the
same result on an identifier and on its lower-casing; any document
`create_user` (mongo_02) adds to the users collection carries the lower-cased
identifier; and `create_step` (mongo_01) persists a fresh step with its
`userIdentifier` value lower-cased. -/
theorem C3_casefolding :
    (∀ (users : List Doc) (s : String),
      Mongo01.getUser users s = Mongo01.getUser users (pyLower s)) ∧
    (∀ (users : List Doc) (u : PyUser) (now : Int) (s : String) (d : Doc),
      u.identifier = Val.str s → d ∈ (Mongo02.createUser users u now).1 →
      d ∈ users ∨ getField d "identifier" = some (Val.str (pyLower s))) ∧
    (∀ (db : DB) (step0 : Doc) (freshId : String) (now : Int) (ctxUser : Option Val) (u : String),
      (docKeys step0).Nodup →
      getField step0 "userIdentifier" = some (Val.str u) →
      (∀ d ∈ db.steps,
        queryMatches d [("id", QCond.eqV (expectedStepId step0 freshId))] = false) →
      ∃ pdoc, (Mongo01.createStep db step0 freshId now ctxUser).2.steps = db.steps ++ [pdoc] ∧
        getField pdoc "userIdentifier" = some (Val.str (pyLower u))) := by
  refine ⟨?_, ?_, ?_⟩
  · intro users s
    simp only [Mongo01.getUser, pyLower_idem]
  · intro users u now s d hs hd
    simp only [Mongo02.createUser] at hd
    rcases mem_updateOne_soi_only _ _ _ _ hd with h | h
    · left
      exact h
    · right
      rw [h]
      have hident : (if u.identifier.truthy then normalizeIdentifierVal u.identifier
          else u.identifier) = Val.str (pyLower s) := by
        rw [hs]
        by_cases ht : (Val.str s).truthy
        · simp only [ht, if_true]
          rfl
        · have hs0 : s = "" := by
            simpa [Val.truthy, String.isEmpty_iff] using ht
          subst hs0
          simp only [ht, Bool.false_eq_true, if_false]
          rfl
      rw [hident]
      refine getField_applySet_has _ _ _ _ ?_ rfl
      show (["identifier", "metadata", "created_at"] : List String).Nodup
      decide
  · intro db step0 freshId now ctxUser u hnd hui hfresh
    obtain ⟨hida, hnda, huida, -⟩ := createStep01_norm_facts step0 freshId now
    rw [createStep01_steps, hida, Option.getD_some,
        updateOne_no_match db.steps _ _ _ hfresh]
    exact ⟨_, rfl, getField_applySet_has _ _ _ _ (hnda hnd) (huida u hui)⟩

/-- Witness for C3: the identifier "Alice", the user "Bob" and a step by
"Carol". -/
theorem C3_casefolding_witness :
    Mongo01.getUser [] "Alice" = Mongo01.getUser [] (pyLower "Alice") ∧
    ([("identifier", Val.str "bob"), ("metadata", Val.dictV []), ("created_at", Val.dt 0)] ∈
        ([] : List Doc) ∨
      getField [("identifier", Val.str "bob"), ("metadata", Val.dictV []), ("created_at", Val.dt 0)]
        "identifier" = some (Val.str (pyLower "Bob"))) ∧
    ∃ pdoc, (Mongo01.createStep ⟨[], [], [], [], [], []⟩
        [("userIdentifier", Val.str "Carol")] "u2" 0 none).2.steps = [] ++ [pdoc] ∧
      getField pdoc "userIdentifier" = some (Val.str (pyLower "Carol")) :=
  ⟨C3_casefolding.1 [] "Alice",
   C3_casefolding.2.1 [] ⟨Val.str "Bob", []⟩ 0 "Bob"
     [("identifier", Val.str "bob"), ("metadata", Val.dictV []), ("created_at", Val.dt 0)]
     rfl
     (by
       rw [show (Mongo02.createUser [] ⟨Val.str "Bob", []⟩ 0).1 =
         [[("identifier", Val.str "bob"), ("metadata", Val.dictV []), ("created_at", Val.dt 0)]] from rfl]
       exact List.mem_singleton_self _),
   C3_casefolding.2.2 ⟨[], [], [], [], [], []⟩ [("userIdentifier", Val.str "Carol")] "u2" 0 none
     "Carol" (by decide) rfl (by intro d hd; exact absurd hd (List.not_mem_nil d))⟩

theorem firstTextCandidate_hasContent (l : List (Option Val)) (s : String)
    (h : Mongo04.firstTextCandidate l = some s) : hasContent s = true := by
  induction l with
  | nil => simp [Mongo04.firstTextCandidate] at h
  | cons c rest ih =>
    match c with
    | some (Val.str t) =>
      rw [Mongo04.firstTextCandidate] at h
      by_cases hc : hasContent t
      · simp only [hc, if_true, Option.some.injEq] at h
        rw [← h]
        exact hc
      · simp only [hc, Bool.false_eq_true, if_false] at h
        exact ih h
    | some (Val.oid v) => exact ih h
    | some (Val.intV v) => exact ih h
    | some (Val.dt v) => exact ih h
    | some (Val.dictV v) => exact ih h
    | some (Val.arr v) => exact ih h
    | some Val.null => exact ih h
    | none => exact ih h

theorem threadNameSource_hasContent (step : Doc) (s : String)
    (h : threadNameSource step = some s) : hasContent s = true := by
  unfold threadNameSource at h
  cases hexp : pyOr (getField step "threadName")
      (pyOr (getField step "thread_title") (getField step "name")) with
  | none =>
    rw [hexp] at h
    exact firstTextCandidate_hasContent _ _ h
  | some v =>
    rw [hexp] at h
    match v with
    | Val.str t =>
      by_cases hc : hasContent t
      · simp only [hc, if_true, Option.some.injEq] at h
        rw [← h]
        exact hc
      · simp only [hc, Bool.false_eq_true, if_false] at h
        exact firstTextCandidate_hasContent _ _ h
    | Val.oid w => exact firstTextCandidate_hasContent _ _ h
    | Val.intV w => exact firstTextCandidate_hasContent _ _ h
    | Val.dt w => exact firstTextCandidate_hasContent _ _ h
    | Val.dictV w => exact firstTextCandidate_hasContent _ _ h
    | Val.arr w => exact firstTextCandidate_hasContent _ _ h
    | Val.null => exact firstTextCandidate_hasContent _ _ h

theorem deriveThreadName_eq_source (step : Doc) (maxLen : Nat) :
    Mongo04.deriveThreadNameFromStep step maxLen =
      (match threadNameSource step with
       | some s => pyTrunc (pyCollapseWs s) maxLen
       | none => "New Chat") := by
  unfold Mongo04.deriveThreadNameFromStep threadNameSource threadNameTextCandidates
  cases hexp : pyOr (getField step "threadName")
      (pyOr (getField step "thread_title") (getField step "name")) with
  | none => rfl
  | some v =>
    match v with
    | Val.str t =>
      by_cases hc : hasContent t
      · simp [hc]
      · simp [hc]
    | Val.oid w => rfl
    | Val.intV w => rfl
    | Val.dt w => rfl
    | Val.dictV w => rfl
    | Val.arr w => rfl
    | Val.null => rfl

theorem pyCollapseWs_length_pos (s : String) (h : hasContent s = true) :
    1 ≤ (pyCollapseWs s).length := by
  obtain ⟨c, hc, hcw⟩ := List.any_eq_true.mp h
  have hne : pyWords s.data ≠ [] := by
    apply pyWordsAux_ne_nil
    exact Or.inl ⟨c, hc, by simpa using hcw⟩
  obtain ⟨w, ws, hws⟩ := List.exists_cons_of_ne_nil hne
  have hwne : w ≠ [] := by
    apply mem_pyWordsAux_ne_nil s.data [] w
    rw [show pyWordsAux s.data [] = pyWords s.data from rfl, hws]
    simp
  have hwlen : 1 ≤ w.length := by
    cases w
    · exact absurd rfl hwne
    · simp
  have : w.length ≤ (joinWords (pyWords s.data)).length := by
    rw [hws]
    exact joinWords_length_ge w ws
  have hcol : (pyCollapseWs s).length = (joinWords (pyWords s.data)).length := rfl
  omega

/-- C9 counterexample: (i) with `threadName` the blank-but-truthy " " and
`thread_title` "Hello", the explicit chain stops at the first truthy value,
abandons it as blank and falls back to "New Chat" — although an explicit
non-blank `thread_title` exists, contradicting the claim that any non-blank
explicit value is used; (ii) with `max_len` 3 the fallback "New Chat" has 8
characters, contradicting the at-most-`max_len` bound. -/
theorem C9_counterexample :
    Mongo04.deriveThreadNameFromStep
      [("threadName", Val.str " "), ("thread_title", Val.str "Hello")] 80 = "New Chat" ∧
    (Mongo04.deriveThreadNameFromStep ([] : Doc) 3).length = 8 ∧
    ¬ ((Mongo04.deriveThreadNameFromStep ([] : Doc) 3).length ≤ 3) := by
  refine ⟨rfl, rfl, by decide⟩

/-- C9 (amended): `_derive_thread_name_from_step` always returns a non-empty
string of at most `max_len` characters provided `max_len` is at least 8, the
length of the fallback "New Chat" (the default 80 qualifies). The text used
is the first truthy value among `threadName`/`thread_title`/`name` when that
value is a non-blank string — a truthy but blank explicit value makes the
function skip the remaining explicit keys — else the first non-blank string
among `message.content`, `input`, `content`, `text`, `output`; that text is
returned whitespace-collapsed and truncated to `max_len`, and with no such
text the result is exactly "New Chat". -/
theorem C9_deriveThreadName (step : Doc) (maxLen : Nat) (h8 : 8 ≤ maxLen) :
    (Mongo04.deriveThreadNameFromStep step maxLen ≠ "" ∧
     (Mongo04.deriveThreadNameFromStep step maxLen).length ≤ maxLen) ∧
    (∀ s, threadNameSource step = some s →
      Mongo04.deriveThreadNameFromStep step maxLen = pyTrunc (pyCollapseWs s) maxLen) ∧
    (threadNameSource step = none →
      Mongo04.deriveThreadNameFromStep step maxLen = "New Chat") := by
  have hchar := deriveThreadName_eq_source step maxLen
  refine ⟨?_, ?_, ?_⟩
  · cases hsrc : threadNameSource step with
    | none =>
      rw [hsrc] at hchar
      dsimp only at hchar
      rw [hchar]
      constructor
      · intro h
        exact absurd h (by decide)
      · simpa using h8
    | some s =>
      rw [hsrc] at hchar
      dsimp only at hchar
      rw [hchar]
      have hcont : hasContent s = true := threadNameSource_hasContent step s hsrc
      have hpos : 1 ≤ (pyCollapseWs s).length := pyCollapseWs_length_pos s hcont
      have hlen : (pyTrunc (pyCollapseWs s) maxLen).length =
          min maxLen (pyCollapseWs s).length := by
        show ((pyCollapseWs s).data.take maxLen).length = _
        rw [List.length_take]
        rfl
      constructor
      · intro h
        have h0 : (pyTrunc (pyCollapseWs s) maxLen).length = 0 := by
          rw [h]
          rfl
        rw [hlen] at h0
        have hL : (pyCollapseWs s).length = (pyCollapseWs s).data.length := rfl
        omega
      · rw [hlen]
        omega
  · intro s hs
    rw [hs] at hchar
    dsimp only at hchar
    exact hchar
  · intro hs
    rw [hs] at hchar
    dsimp only at hchar
    exact hchar

/-- Witness for C9 at the default length bound 80 on a step whose `input`
text is padded with extra whitespace. -/
theorem C9_deriveThreadName_witness :
    (Mongo04.deriveThreadNameFromStep [("input", Val.str "  Hello   world  ")] 80 ≠ "" ∧
     (Mongo04.deriveThreadNameFromStep [("input", Val.str "  Hello   world  ")] 80).length ≤ 80) ∧
    (∀ s, threadNameSource [("input", Val.str "  Hello   world  ")] = some s →
      Mongo04.deriveThreadNameFromStep [("input", Val.str "  Hello   world  ")] 80 =
        pyTrunc (pyCollapseWs s) 80) ∧
    (threadNameSource [("input", Val.str "  Hello   world  ")] = none →
      Mongo04.deriveThreadNameFromStep [("input", Val.str "  Hello   world  ")] 80 = "New Chat") :=
  C9_deriveThreadName [("input", Val.str "  Hello   world  ")] 80 (by decide)

theorem Telemetry.ensureRaises_events (s : Telemetry.MetricsCollector) (ev : List Telemetry.MetricEvent) :
    Telemetry.ensureRaises { s with events := ev } = Telemetry.ensureRaises s := rfl

theorem Telemetry.raised_addUser (s : Telemetry.MetricsCollector) (u : String) :
    Telemetry.raised (Telemetry.addUser s u) = Telemetry.ensureRaises s := by
  cases hc : Telemetry.ensureRaises s <;>
    simp [Telemetry.addUser, Telemetry.raised, hc]

theorem Telemetry.raised_incrementCounter (s : Telemetry.MetricsCollector) (c : String)
    (l : List (String × String)) :
    Telemetry.raised (Telemetry.incrementCounter s c l) = Telemetry.ensureRaises s := by
  cases hc : Telemetry.ensureRaises s <;>
    simp [Telemetry.incrementCounter, Telemetry.raised, hc]

theorem Telemetry.raised_addFeatureUsage (s : Telemetry.MetricsCollector) (f u : String) :
    Telemetry.raised (Telemetry.addFeatureUsage s f u) = Telemetry.ensureRaises s := by
  cases hc : Telemetry.ensureRaises s
  · simp only [Telemetry.addFeatureUsage, hc, Bool.false_eq_true, if_false]
    rw [Telemetry.raised_addUser, Telemetry.ensureRaises_events]
    exact hc
  · simp [Telemetry.addFeatureUsage, Telemetry.raised, hc]

theorem Telemetry.raised_addToolCall (s : Telemetry.MetricsCollector) (t u : String) :
    Telemetry.raised (Telemetry.addToolCall s t u) = Telemetry.ensureRaises s := by
  cases hc : Telemetry.ensureRaises s
  · simp only [Telemetry.addToolCall, hc, Bool.false_eq_true, if_false]
    rw [Telemetry.raised_addUser, Telemetry.ensureRaises_events]
    exact hc
  · simp [Telemetry.addToolCall, Telemetry.raised, hc]

theorem Telemetry.raised_addToolCallError (s : Telemetry.MetricsCollector) (t u : String) :
    Telemetry.raised (Telemetry.addToolCallError s t u) = Telemetry.ensureRaises s := by
  cases hc : Telemetry.ensureRaises s
  · simp only [Telemetry.addToolCallError, hc, Bool.false_eq_true, if_false]
    rw [Telemetry.raised_addUser, Telemetry.ensureRaises_events]
    exact hc
  · simp [Telemetry.addToolCallError, Telemetry.raised, hc]

theorem Telemetry.raised_addToolResponseTime (s : Telemetry.MetricsCollector) (t : String)
    (r : Int) (u : String) :
    Telemetry.raised (Telemetry.addToolResponseTime s t r u) = Telemetry.ensureRaises s := by
  cases hc : Telemetry.ensureRaises s
  · simp only [Telemetry.addToolResponseTime, hc, Bool.false_eq_true, if_false]
    rw [Telemetry.raised_addUser, Telemetry.ensureRaises_events]
    exact hc
  · simp [Telemetry.addToolResponseTime, Telemetry.raised, hc]

theorem Telemetry.raised_addFeatureResponseTime (s : Telemetry.MetricsCollector) (f : String)
    (r : Int) (u : String) :
    Telemetry.raised (Telemetry.addFeatureResponseTime s f r u) = Telemetry.ensureRaises s := by
  cases hc : Telemetry.ensureRaises s
  · simp only [Telemetry.addFeatureResponseTime, hc, Bool.false_eq_true, if_false]
    rw [Telemetry.raised_addUser, Telemetry.ensureRaises_events]
    exact hc
  · simp [Telemetry.addFeatureResponseTime, Telemetry.raised, hc]

theorem Telemetry.raised_addStoryOpen (s : Telemetry.MetricsCollector) (u : String) :
    Telemetry.raised (Telemetry.addStoryOpen s u) = Telemetry.ensureRaises s := by
  cases hc : Telemetry.ensureRaises s
  · simp only [Telemetry.addStoryOpen, hc, Bool.false_eq_true, if_false]
    rw [Telemetry.raised_addUser, Telemetry.ensureRaises_events]
    exact hc
  · simp [Telemetry.addStoryOpen, Telemetry.raised, hc]

theorem Telemetry.raised_addRefineCompleted (s : Telemetry.MetricsCollector) (u : String) :
    Telemetry.raised (Telemetry.addRefineCompleted s u) = Telemetry.ensureRaises s := by
  cases hc : Telemetry.ensureRaises s
  · simp only [Telemetry.addRefineCompleted, hc, Bool.false_eq_true, if_false]
    rw [Telemetry.raised_addUser, Telemetry.ensureRaises_events]
    exact hc
  · simp [Telemetry.addRefineCompleted, Telemetry.raised, hc]

theorem Telemetry.raised_addStoryCreated (s : Telemetry.MetricsCollector) (u : String) :
    Telemetry.raised (Telemetry.addStoryCreated s u) = Telemetry.ensureRaises s := by
  cases hc : Telemetry.ensureRaises s
  · simp only [Telemetry.addStoryCreated, hc, Bool.false_eq_true, if_false]
    rw [Telemetry.raised_addUser, Telemetry.ensureRaises_events]
    exact hc
  · simp [Telemetry.addStoryCreated, Telemetry.raised, hc]

theorem Telemetry.raised_addFeatureCreated (s : Telemetry.MetricsCollector) (u : String) :
    Telemetry.raised (Telemetry.addFeatureCreated s u) = Telemetry.ensureRaises s := by
  cases hc : Telemetry.ensureRaises s
  · simp only [Telemetry.addFeatureCreated, hc, Bool.false_eq_true, if_false]
    rw [Telemetry.raised_addUser, Telemetry.ensureRaises_events]
    exact hc
  · simp [Telemetry.addFeatureCreated, Telemetry.raised, hc]

theorem Telemetry.addUser_ok (s s2 : Telemetry.MetricsCollector) (u : String)
    (h : Telemetry.addUser s u = .ok s2) : s2.inited = s.inited ∧ s2.meter = s.meter := by
  unfold Telemetry.addUser at h
  split at h
  · simp at h
  · cases h
    exact ⟨rfl, rfl⟩

theorem Telemetry.incrementCounter_ok (s s2 : Telemetry.MetricsCollector) (c : String)
    (l : List (String × String))
    (h : Telemetry.incrementCounter s c l = .ok s2) : s2.inited = s.inited ∧ s2.meter = s.meter := by
  unfold Telemetry.incrementCounter at h
  split at h
  · simp at h
  · simp only [Except.ok.injEq] at h
    subst h
    constructor
    · by_cases hc : c ∈ s.counters <;> simp [hc]
    · by_cases hc : c ∈ s.counters <;> simp [hc]

theorem Telemetry.addFeatureUsage_ok (s s2 : Telemetry.MetricsCollector) (f u : String)
    (h : Telemetry.addFeatureUsage s f u = .ok s2) : s2.inited = s.inited ∧ s2.meter = s.meter := by
  unfold Telemetry.addFeatureUsage at h
  split at h
  · simp at h
  · obtain ⟨h1, h2⟩ := Telemetry.addUser_ok _ _ _ h
    exact ⟨h1, h2⟩

theorem Telemetry.addToolCall_ok (s s2 : Telemetry.MetricsCollector) (t u : String)
    (h : Telemetry.addToolCall s t u = .ok s2) : s2.inited = s.inited ∧ s2.meter = s.meter := by
  unfold Telemetry.addToolCall at h
  split at h
  · simp at h
  · obtain ⟨h1, h2⟩ := Telemetry.addUser_ok _ _ _ h
    exact ⟨h1, h2⟩

theorem Telemetry.addToolCallError_ok (s s2 : Telemetry.MetricsCollector) (t u : String)
    (h : Telemetry.addToolCallError s t u = .ok s2) : s2.inited = s.inited ∧ s2.meter = s.meter := by
  unfold Telemetry.addToolCallError at h
  split at h
  · simp at h
  · obtain ⟨h1, h2⟩ := Telemetry.addUser_ok _ _ _ h
    exact ⟨h1, h2⟩

theorem Telemetry.addToolResponseTime_ok (s s2 : Telemetry.MetricsCollector) (t : String)
    (r : Int) (u : String)
    (h : Telemetry.addToolResponseTime s t r u = .ok s2) :
    s2.inited = s.inited ∧ s2.meter = s.meter := by
  unfold Telemetry.addToolResponseTime at h
  split at h
  · simp at h
  · obtain ⟨h1, h2⟩ := Telemetry.addUser_ok _ _ _ h
    exact ⟨h1, h2⟩

theorem Telemetry.addFeatureResponseTime_ok (s s2 : Telemetry.MetricsCollector) (f : String)
    (r : Int) (u : String)
    (h : Telemetry.addFeatureResponseTime s f r u = .ok s2) :
    s2.inited = s.inited ∧ s2.meter = s.meter := by
  unfold Telemetry.addFeatureResponseTime at h
  split at h
  · simp at h
  · obtain ⟨h1, h2⟩ := Telemetry.addUser_ok _ _ _ h
    exact ⟨h1, h2⟩

theorem Telemetry.addStoryOpen_ok (s s2 : Telemetry.MetricsCollector) (u : String)
    (h : Telemetry.addStoryOpen s u = .ok s2) : s2.inited = s.inited ∧ s2.meter = s.meter := by
  unfold Telemetry.addStoryOpen at h
  split at h
  · simp at h
  · obtain ⟨h1, h2⟩ := Telemetry.addUser_ok _ _ _ h
    exact ⟨h1, h2⟩

theorem Telemetry.addRefineCompleted_ok (s s2 : Telemetry.MetricsCollector) (u : String)
    (h : Telemetry.addRefineCompleted s u = .ok s2) : s2.inited = s.inited ∧ s2.meter = s.meter := by
  unfold Telemetry.addRefineCompleted at h
  split at h
  · simp at h
  · obtain ⟨h1, h2⟩ := Telemetry.addUser_ok _ _ _ h
    exact ⟨h1, h2⟩

theorem Telemetry.addStoryCreated_ok (s s2 : Telemetry.MetricsCollector) (u : String)
    (h : Telemetry.addStoryCreated s u = .ok s2) : s2.inited = s.inited ∧ s2.meter = s.meter := by
  unfold Telemetry.addStoryCreated at h
  split at h
  · simp at h
  · obtain ⟨h1, h2⟩ := Telemetry.addUser_ok _ _ _ h
    exact ⟨h1, h2⟩

theorem Telemetry.addFeatureCreated_ok (s s2 : Telemetry.MetricsCollector) (u : String)
    (h : Telemetry.addFeatureCreated s u = .ok s2) : s2.inited = s.inited ∧ s2.meter = s.meter := by
  unfold Telemetry.addFeatureCreated at h
  split at h
  · simp at h
  · obtain ⟨h1, h2⟩ := Telemetry.addUser_ok _ _ _ h
    exact ⟨h1, h2⟩

theorem Telemetry.reachable_meter_isSome (s : Telemetry.MetricsCollector)
    (h : Telemetry.Reachable s) : s.inited = true → s.meter.isSome = true := by
  induction h with
  | fresh =>
    intro hi
    exact absurd hi (by decide)
  | init s cfg hr ih =>
    intro hi
    by_cases hs : s.inited = true
    · simp only [Telemetry.initMetrics, hs, if_true]
      exact ih hs
    · simp [Telemetry.initMetrics, hs]
  | incr s s2 c l hr heq ih =>
    intro hi
    obtain ⟨h1, h2⟩ := Telemetry.incrementCounter_ok s s2 c l heq
    rw [h1] at hi
    rw [h2]
    exact ih hi
  | user s s2 u hr heq ih =>
    intro hi
    obtain ⟨h1, h2⟩ := Telemetry.addUser_ok s s2 u heq
    rw [h1] at hi
    rw [h2]
    exact ih hi
  | featureUsage s s2 f u hr heq ih =>
    intro hi
    obtain ⟨h1, h2⟩ := Telemetry.addFeatureUsage_ok s s2 f u heq
    rw [h1] at hi
    rw [h2]
    exact ih hi
  | toolCall s s2 t u hr heq ih =>
    intro hi
    obtain ⟨h1, h2⟩ := Telemetry.addToolCall_ok s s2 t u heq
    rw [h1] at hi
    rw [h2]
    exact ih hi
  | toolCallError s s2 t u hr heq ih =>
    intro hi
    obtain ⟨h1, h2⟩ := Telemetry.addToolCallError_ok s s2 t u heq
    rw [h1] at hi
    rw [h2]
    exact ih hi
  | toolResponseTime s s2 t r u hr heq ih =>
    intro hi
    obtain ⟨h1, h2⟩ := Telemetry.addToolResponseTime_ok s s2 t r u heq
    rw [h1] at hi
    rw [h2]
    exact ih hi
  | featureResponseTime s s2 f r u hr heq ih =>
    intro hi
    obtain ⟨h1, h2⟩ := Telemetry.addFeatureResponseTime_ok s s2 f r u heq
    rw [h1] at hi
    rw [h2]
    exact ih hi
  | storyOpen s s2 u hr heq ih =>
    intro hi
    obtain ⟨h1, h2⟩ := Telemetry.addStoryOpen_ok s s2 u heq
    rw [h1] at hi
    rw [h2]
    exact ih hi
  | refineCompleted s s2 u hr heq ih =>
    intro hi
    obtain ⟨h1, h2⟩ := Telemetry.addRefineCompleted_ok s s2 u heq
    rw [h1] at hi
    rw [h2]
    exact ih hi
  | storyCreated s s2 u hr heq ih =>
    intro hi
    obtain ⟨h1, h2⟩ := Telemetry.addStoryCreated_ok s s2 u heq
    rw [h1] at hi
    rw [h2]
    exact ih hi
  | featureCreated s s2 u hr heq ih =>
    intro hi
    obtain ⟨h1, h2⟩ := Telemetry.addFeatureCreated_ok s s2 u heq
    rw [h1] at hi
    rw [h2]
    exact ih hi

/-- C10 (confirmed): on every collector state reachable through the class
interface, each of the eleven recording methods raises the RuntimeError of
`_ensure_initialized` exactly when `init_metrics` has not completed on the
instance (the guard also tests `self.meter is None`, but a reachable
initialized collector always has a meter), and a second `init_metrics` call
on an initialized collector returns the state unchanged. -/
theorem C10_metrics_guard (s : Telemetry.MetricsCollector) (h : Telemetry.Reachable s) :
    (∀ c l, Telemetry.raised (Telemetry.incrementCounter s c l) = !s.inited) ∧
    (∀ u, Telemetry.raised (Telemetry.addUser s u) = !s.inited) ∧
    (∀ f u, Telemetry.raised (Telemetry.addFeatureUsage s f u) = !s.inited) ∧
    (∀ t u, Telemetry.raised (Telemetry.addToolCall s t u) = !s.inited) ∧
    (∀ t u, Telemetry.raised (Telemetry.addToolCallError s t u) = !s.inited) ∧
    (∀ t r u, Telemetry.raised (Telemetry.addToolResponseTime s t r u) = !s.inited) ∧
    (∀ f r u, Telemetry.raised (Telemetry.addFeatureResponseTime s f r u) = !s.inited) ∧
    (∀ u, Telemetry.raised (Telemetry.addStoryOpen s u) = !s.inited) ∧
    (∀ u, Telemetry.raised (Telemetry.addRefineCompleted s u) = !s.inited) ∧
    (∀ u, Telemetry.raised (Telemetry.addStoryCreated s u) = !s.inited) ∧
    (∀ u, Telemetry.raised (Telemetry.addFeatureCreated s u) = !s.inited) ∧
    (∀ cfg, s.inited = true → Telemetry.initMetrics s cfg = s) := by
  have hmet := Telemetry.reachable_meter_isSome s h
  have hens : Telemetry.ensureRaises s = !s.inited := by
    cases hi : s.inited
    · simp [Telemetry.ensureRaises, hi]
    · have hS := hmet hi
      cases hm : s.meter with
      | none =>
        rw [hm] at hS
        exact absurd hS (by decide)
      | some m =>
        simp [Telemetry.ensureRaises, hi, hm]
  refine ⟨?_, ?_, ?_, ?_, ?_, ?_, ?_, ?_, ?_, ?_, ?_, ?_⟩
  · intro c l
    rw [Telemetry.raised_incrementCounter, hens]
  · intro u
    rw [Telemetry.raised_addUser, hens]
  · intro f u
    rw [Telemetry.raised_addFeatureUsage, hens]
  · intro t u
    rw [Telemetry.raised_addToolCall, hens]
  · intro t u
    rw [Telemetry.raised_addToolCallError, hens]
  · intro t r u
    rw [Telemetry.raised_addToolResponseTime, hens]
  · intro f r u
    rw [Telemetry.raised_addFeatureResponseTime, hens]
  · intro u
    rw [Telemetry.raised_addStoryOpen, hens]
  · intro u
    rw [Telemetry.raised_addRefineCompleted, hens]
  · intro u
    rw [Telemetry.raised_addStoryCreated, hens]
  · intro u
    rw [Telemetry.raised_addFeatureCreated, hens]
  · intro cfg hi
    simp [Telemetry.initMetrics, hi]

/-- Witness for C10 at the collector obtained by one `init_metrics` call on a
fresh instance: recording succeeds there and re-initialization is a no-op. -/
theorem C10_metrics_guard_witness :
    Telemetry.Reachable
      (Telemetry.initMetrics Telemetry.freshCollector ⟨"svc", "http://collector:4318/v1/metrics", 5000, "0.1.0"⟩) ∧
    Telemetry.raised
      (Telemetry.addUser
        (Telemetry.initMetrics Telemetry.freshCollector ⟨"svc", "http://collector:4318/v1/metrics", 5000, "0.1.0"⟩)
        "alice") = false ∧
    Telemetry.initMetrics
      (Telemetry.initMetrics Telemetry.freshCollector ⟨"svc", "http://collector:4318/v1/metrics", 5000, "0.1.0"⟩)
      ⟨"other", "http://other:4318/v1/metrics", 1000, "0.2.0"⟩ =
      Telemetry.initMetrics Telemetry.freshCollector ⟨"svc", "http://collector:4318/v1/metrics", 5000, "0.1.0"⟩ :=
  have hr : Telemetry.Reachable
      (Telemetry.initMetrics Telemetry.freshCollector ⟨"svc", "http://collector:4318/v1/metrics", 5000, "0.1.0"⟩) :=
    Telemetry.Reachable.init Telemetry.freshCollector _ Telemetry.Reachable.fresh
  ⟨hr,
   (C10_metrics_guard _ hr).2.1 "alice",
   (C10_metrics_guard _ hr).2.2.2.2.2.2.2.2.2.2.2 ⟨"other", "http://other:4318/v1/metrics", 1000, "0.2.0"⟩ rfl⟩

theorem getField_encodeDoc (d : Doc) (k : String) :
    getField (encodeDoc d) k = (getField d k).map encodeVal := by
  induction d with
  | nil => rfl
  | cons p r ih =>
    cases p with
    | mk k1 v =>
      rw [show encodeDoc ((k1, v) :: r) = (k1, encodeVal v) :: encodeDoc r from rfl]
      rw [getField_cons, getField_cons]
      by_cases hk : k1 = k
      · simp [hk]
      · simp only [hk, if_false]
        exact ih

theorem getField_of_mem_findAll_eq_str (c : List Doc) (q : Query) (k s : String)
    (hq : (k, QCond.eqV (Val.str s)) ∈ q) (d : Doc) (hd : d ∈ findAll c q) :
    getField d k = some (Val.str s) := by
  have hm : queryMatches d q = true := (List.mem_filter.mp hd).2
  have hc : condMatches d k (QCond.eqV (Val.str s)) = true :=
    List.all_eq_true.mp hm (k, QCond.eqV (Val.str s)) hq
  unfold condMatches at hc
  cases hg : getField d k with
  | none =>
    rw [hg] at hc
    exact Bool.noConfusion hc
  | some w =>
    rw [hg] at hc
    dsimp only at hc
    rw [(Val.beq_str_iff w s).mp hc]

theorem mem_of_mem_page (l : List Doc) (skip lim : Nat) (d : Doc)
    (hd : d ∈ ((sortByUpdatedAtDesc l).drop skip).take lim) : d ∈ l := by
  have h1 : d ∈ (sortByUpdatedAtDesc l).drop skip := List.take_subset _ _ hd
  have h2 : d ∈ sortByUpdatedAtDesc l := List.drop_subset _ _ h1
  exact (List.perm_insertionSort _ l).mem_iff.mp h2

theorem getField_prepareThreadItem01_uid (now : Int) (it : Doc) :
    getField (Mongo01.prepareThreadItem now it) "userIdentifier" =
      (getField it "userIdentifier").map encodeVal := by
  simp only [Mongo01.prepareThreadItem]
  rw [getField_encodeDoc,
    getField_setField_ne _ "updatedAt" "userIdentifier" _ (by decide),
    getField_setField_ne _ "createdAt" "userIdentifier" _ (by decide),
    getField_setDefault_ne _ "updated_at" "userIdentifier" _ (by decide),
    getField_setDefault_ne _ "created_at" "userIdentifier" _ (by decide),
    getField_setDefault_ne _ "name" "userIdentifier" _ (by decide)]
  split
  · rw [getField_setField_ne _ "id" "userIdentifier" _ (by decide)]
  · rfl

theorem getField_prepareThreadItem03_uid (now : Int) (it : Doc) :
    getField (Mongo03.prepareThreadItem now it) "userIdentifier" =
      (getField it "userIdentifier").map encodeVal := by
  simp only [Mongo03.prepareThreadItem]
  rw [getField_encodeDoc]
  split
  · rw [getField_setField_ne _ "id" "userIdentifier" _ (by decide),
      getField_setField_ne _ "updatedAt" "userIdentifier" _ (by decide),
      getField_setField_ne _ "createdAt" "userIdentifier" _ (by decide),
      getField_setDefault_ne _ "updated_at" "userIdentifier" _ (by decide),
      getField_setDefault_ne _ "created_at" "userIdentifier" _ (by decide),
      getField_setDefault_ne _ "name" "userIdentifier" _ (by decide)]
  · rw [getField_setField_ne _ "updatedAt" "userIdentifier" _ (by decide),
      getField_setField_ne _ "createdAt" "userIdentifier" _ (by decide),
      getField_setDefault_ne _ "updated_at" "userIdentifier" _ (by decide),
      getField_setDefault_ne _ "created_at" "userIdentifier" _ (by decide),
      getField_setDefault_ne _ "name" "userIdentifier" _ (by decide)]

theorem scoped_page_facts (threads : List Doc) (q : Query) (ident : String)
    (prep : Doc → Doc)
    (hprep : ∀ d, getField (prep d) "userIdentifier" = (getField d "userIdentifier").map encodeVal)
    (hq : ("userIdentifier", QCond.eqV (Val.str ident)) ∈ q)
    (skip lim : Nat) :
    (∀ d ∈ (((sortByUpdatedAtDesc (findAll threads q)).drop skip).take lim).map prep,
      getField d "userIdentifier" = some (Val.str ident)) ∧
    ((((sortByUpdatedAtDesc (findAll threads q)).drop skip).take lim).map prep).length ≤ lim := by
  constructor
  · intro d hd
    obtain ⟨d0, hd0, hde⟩ := List.mem_map.mp hd
    have h1 : d0 ∈ findAll threads q := mem_of_mem_page (findAll threads q) skip lim d0 hd0
    have h2 : getField d0 "userIdentifier" = some (Val.str ident) :=
      getField_of_mem_findAll_eq_str threads q "userIdentifier" ident hq d0 h1
    rw [← hde, hprep d0, h2]
    rfl
  · rw [List.length_map, List.length_take]
    exact min_le_left _ _

/-- C6 (confirmed): `list_threads` user scoping in mongo_01 and mongo_03.
When the `userId` filter resolves to no stored user — through the ObjectId
lookup and the lower-cased-identifier lookup the variant performs — both
variants return the empty page `data = [], total = 0, page = 1, size = 0`;
when it resolves to a user document whose stored identifier is the string
`ident`, every thread document of a returned response carries
`userIdentifier = ident`, and at most `limit` threads are returned. -/
theorem C6_listThreads_user_scoping (db : DB) (pag : Option Pagination)
    (cp : Option Val) (now : Int) (s : String) :
    (Mongo01.resolveListUser db.users (Val.str s) = none →
      Mongo01.listThreads db pag ⟨some (Val.str s), cp⟩ now = some ⟨[], 0, 1, 0⟩) ∧
    (Mongo03.resolveListUser db.users (some (Val.str s)) = none →
      Mongo03.listThreads db pag ⟨some (Val.str s), cp⟩ now = some ⟨[], 0, 1, 0⟩) ∧
    (∀ udoc ident resp,
      Mongo01.resolveListUser db.users (Val.str s) = some udoc →
      getField udoc "identifier" = some (Val.str ident) →
      Mongo01.listThreads db pag ⟨some (Val.str s), cp⟩ now = some resp →
      (∀ d ∈ resp.data, getField d "userIdentifier" = some (Val.str ident)) ∧
      resp.data.length ≤ (paginationSkipLimit pag).2.toNat) ∧
    (∀ udoc ident resp,
      Mongo03.resolveListUser db.users (some (Val.str s)) = some udoc →
      getField udoc "identifier" = some (Val.str ident) →
      Mongo03.listThreads db pag ⟨some (Val.str s), cp⟩ now = some resp →
      (∀ d ∈ resp.data, getField d "userIdentifier" = some (Val.str ident)) ∧
      resp.data.length ≤ (paginationSkipLimit pag).2.toNat) := by
  refine ⟨?_, ?_, ?_, ?_⟩
  · intro h
    simp only [Mongo01.listThreads]
    split
    · rfl
    · split
      · rfl
      · rename_i udoc2 heq
        rw [h] at heq
        exact Option.noConfusion heq
  · intro h
    simp only [Mongo03.listThreads]
    split
    · rfl
    · rename_i udoc2 heq
      rw [h] at heq
      exact Option.noConfusion heq
  · intro udoc ident resp hu hid hr
    simp only [Mongo01.listThreads] at hr
    split at hr
    · injection hr with h
      subst h
      refine ⟨?_, ?_⟩
      · intro d hd
        exact absurd hd (by simp)
      · simp
    · split at hr
      · rename_i heq
        rw [hu] at heq
        exact Option.noConfusion heq
      · rename_i udoc2 heq
        rw [hu] at heq
        injection heq with h
        subst h
        rw [hid] at hr
        simp only [Option.getD_some] at hr
        split at hr
        · exact Option.noConfusion hr
        · injection hr with h2
          subst h2
          refine scoped_page_facts db.threads _ ident (Mongo01.prepareThreadItem now)
            (getField_prepareThreadItem01_uid now) ?_ _ _
          cases cp with
          | none => exact List.mem_singleton_self _
          | some v =>
            by_cases hv : v.truthy = true
            · dsimp only
              rw [if_pos hv]
              exact List.mem_append_left _ (List.mem_singleton_self _)
            · dsimp only
              rw [if_neg hv]
              exact List.mem_singleton_self _
  · intro udoc ident resp hu hid hr
    simp only [Mongo03.listThreads] at hr
    split at hr
    · rename_i heq
      rw [hu] at heq
      exact Option.noConfusion heq
    · rename_i udoc2 heq
      rw [hu] at heq
      injection heq with h
      subst h
      rw [hid] at hr
      simp only [Option.getD_some] at hr
      split at hr
      · exact Option.noConfusion hr
      · injection hr with h2
        subst h2
        refine scoped_page_facts db.threads _ ident (Mongo03.prepareThreadItem now)
          (getField_prepareThreadItem03_uid now) ?_ _ _
        cases cp with
        | none => exact List.mem_singleton_self _
        | some v =>
          by_cases hv : v.truthy = true
          · dsimp only
            rw [if_pos hv]
            exact List.mem_append_left _ (List.mem_singleton_self _)
          · dsimp only
            rw [if_neg hv]
            exact List.mem_singleton_self _

/-- Witness for C6: a two-user store; the unresolved id "ghost" yields the
empty page in both variants, and listing for "Alice" (stored as "alice")
returns exactly alice's thread, scoped and within the default limit 20. -/
theorem C6_listThreads_user_scoping_witness :
    Mongo01.listThreads ⟨[[("identifier", Val.str "alice"), ("_id", Val.oid "aaaaaaaaaaaaaaaaaaaaaaaa")]], [[("id", Val.str "t1"), ("userIdentifier", Val.str "alice"), ("updated_at", Val.dt 5)], [("id", Val.str "t2"), ("userIdentifier", Val.str "bob"), ("updated_at", Val.dt 9)]], [], [], [], []⟩ none ⟨some (Val.str "ghost"), none⟩ 99 = some ⟨[], 0, 1, 0⟩ ∧
    Mongo03.listThreads ⟨[[("identifier", Val.str "alice"), ("_id", Val.oid "aaaaaaaaaaaaaaaaaaaaaaaa")]], [[("id", Val.str "t1"), ("userIdentifier", Val.str "alice"), ("updated_at", Val.dt 5)], [("id", Val.str "t2"), ("userIdentifier", Val.str "bob"), ("updated_at", Val.dt 9)]], [], [], [], []⟩ none ⟨some (Val.str "ghost"), none⟩ 99 = some ⟨[], 0, 1, 0⟩ ∧
    ((∀ d ∈ (⟨[[("id", Val.str "t1"), ("userIdentifier", Val.str "alice"), ("updated_at", Val.str "5"), ("name", Val.str "Untitled"), ("created_at", Val.str "99"), ("createdAt", Val.str "99"), ("updatedAt", Val.str "5")]], 1, 1, 20⟩ : PaginatedResponse).data,
        getField d "userIdentifier" = some (Val.str "alice")) ∧
      (⟨[[("id", Val.str "t1"), ("userIdentifier", Val.str "alice"), ("updated_at", Val.str "5"), ("name", Val.str "Untitled"), ("created_at", Val.str "99"), ("createdAt", Val.str "99"), ("updatedAt", Val.str "5")]], 1, 1, 20⟩ : PaginatedResponse).data.length ≤ (paginationSkipLimit none).2.toNat) :=
  ⟨(C6_listThreads_user_scoping ⟨[[("identifier", Val.str "alice"), ("_id", Val.oid "aaaaaaaaaaaaaaaaaaaaaaaa")]], [[("id", Val.str "t1"), ("userIdentifier", Val.str "alice"), ("updated_at", Val.dt 5)], [("id", Val.str "t2"), ("userIdentifier", Val.str "bob"), ("updated_at", Val.dt 9)]], [], [], [], []⟩ none none 99 "ghost").1 rfl,
   (C6_listThreads_user_scoping ⟨[[("identifier", Val.str "alice"), ("_id", Val.oid "aaaaaaaaaaaaaaaaaaaaaaaa")]], [[("id", Val.str "t1"), ("userIdentifier", Val.str "alice"), ("updated_at", Val.dt 5)], [("id", Val.str "t2"), ("userIdentifier", Val.str "bob"), ("updated_at", Val.dt 9)]], [], [], [], []⟩ none none 99 "ghost").2.1 rfl,
   (C6_listThreads_user_scoping ⟨[[("identifier", Val.str "alice"), ("_id", Val.oid "aaaaaaaaaaaaaaaaaaaaaaaa")]], [[("id", Val.str "t1"), ("userIdentifier", Val.str "alice"), ("updated_at", Val.dt 5)], [("id", Val.str "t2"), ("userIdentifier", Val.str "bob"), ("updated_at", Val.dt 9)]], [], [], [], []⟩ none none 99 "Alice").2.2.1
     [("identifier", Val.str "alice"), ("_id", Val.oid "aaaaaaaaaaaaaaaaaaaaaaaa")] "alice"
     ⟨[[("id", Val.str "t1"), ("userIdentifier", Val.str "alice"), ("updated_at", Val.str "5"), ("name", Val.str "Untitled"), ("created_at", Val.str "99"), ("createdAt", Val.str "99"), ("updatedAt", Val.str "5")]], 1, 1, 20⟩
     rfl rfl rfl⟩
